import Mathlib

/-!
# miniphysics: a shallow embedding of `miniphysics.h`

The scalar type of the C source (`mp_float32`, selected as `mp_real` by
`MP_USE_FLOAT32`) is embedded as an arbitrary linearly ordered field `K`, so
that every definition is read in exact arithmetic.  Over `K = ℚ` all
definitions evaluate; over `K = ℝ` the same definitions can be combined
with square roots and the trigonometric functions.

The rounding of `float` is not modelled.  In `float` the difference
`16777216.0f - 0.5f` is `16777216.0f` again, here a difference is exact; so
every statement below on how often the accumulator loop runs, and on whether
it exits for a positive timestep, is a statement of exact arithmetic.

Conventions of the embedding:

* a C pointer that may be `NULL` is an `Option`: `none` is the null pointer,
  `some v` is a pointer to storage that currently holds `v`;
* a function writing through a pointer returns the new content of the
  storage next to its C return value;
* the `while` loop of `mp_dynamics_world_step` may diverge, so it is run
  with fuel: `none` means that the fuel was exhausted before the loop
  condition became false.
-/

namespace MiniPhysics

/-! ## Vectors (`DECLARE_STRUCT_x2`, `DECLARE_STRUCT_x3`) -/

/-- The struct `mp_float32x2` of `DECLARE_STRUCT_x2`: fields `x`, `y`. -/
structure mp_float32x2 (K : Type) where
  x : K
  y : K
deriving DecidableEq

/-- The struct `mp_float32x3` of `DECLARE_STRUCT_x3`: fields `x`, `y`, `z`. -/
structure mp_float32x3 (K : Type) where
  x : K
  y : K
  z : K
deriving DecidableEq

/-- The union `mp_float32x3x3` of `DECLARE_STRUCT_x3x3`: three columns `col[0..2]`. -/
structure mp_float32x3x3 (K : Type) where
  col0 : mp_float32x3 K
  col1 : mp_float32x3 K
  col2 : mp_float32x3 K
deriving DecidableEq

/-- The struct `mp_float32x4` of `DECLARE_STRUCT_x4`: fields `x`, `y`, `z`, `w`. -/
structure mp_float32x4 (K : Type) where
  x : K
  y : K
  z : K
  w : K
deriving DecidableEq

section Scalar

variable {K : Type} [LinearOrderedField K]

/-- `DEFINE_FUNCTION_add(mp_float32)`: `x + y`, the exact sum (no rounding). -/
def mp_float32_add (x y : K) : K := x + y

/-- `DEFINE_FUNCTION_sub(mp_float32)`: `x - y`, the exact difference (no
rounding: `x - y < x` for every `y > 0`, which `float` does not guarantee). -/
def mp_float32_sub (x y : K) : K := x - y

/-- `mp_float32_mul`: `x * y`. -/
def mp_float32_mul (x y : K) : K := x * y

/-- `DEFINE_FUNCTION_x2f(mp_float32)`. -/
def mp_float32x2f (x y : K) : mp_float32x2 K := { x := x, y := y }

/-- `DEFINE_FUNCTION_x3f(mp_float32)`. -/
def mp_float32x3f (x y z : K) : mp_float32x3 K := { x := x, y := y, z := z }

/-- `DEFINE_FUNCTION_x2_add(mp_float32)`. -/
def mp_float32x2_add (v0 v1 : mp_float32x2 K) : mp_float32x2 K :=
  mp_float32x2f (mp_float32_add v0.x v1.x) (mp_float32_add v0.y v1.y)

/-- `DEFINE_FUNCTION_x3_add(mp_float32)`. -/
def mp_float32x3_add (v0 v1 : mp_float32x3 K) : mp_float32x3 K :=
  mp_float32x3f (mp_float32_add v0.x v1.x) (mp_float32_add v0.y v1.y) (mp_float32_add v0.z v1.z)

/-- `DEFINE_FUNCTION_x2_sub(mp_float32)`. -/
def mp_float32x2_sub (v0 v1 : mp_float32x2 K) : mp_float32x2 K :=
  mp_float32x2f (mp_float32_sub v0.x v1.x) (mp_float32_sub v0.y v1.y)

/-- `DEFINE_FUNCTION_x2_mul1(mp_float32)`. -/
def mp_float32x2_mul1 (v : mp_float32x2 K) (a : K) : mp_float32x2 K :=
  mp_float32x2f (mp_float32_mul v.x a) (mp_float32_mul v.y a)

/-- `DEFINE_FUNCTION_x3_mul1(mp_float32)`. -/
def mp_float32x3_mul1 (v : mp_float32x3 K) (a : K) : mp_float32x3 K :=
  mp_float32x3f (mp_float32_mul v.x a) (mp_float32_mul v.y a) (mp_float32_mul v.z a)

/-- The function `mp_float32x2_dot`. -/
def mp_float32x2_dot (v0 v1 : mp_float32x2 K) : K := v0.x * v1.x + v0.y * v1.y

/-- The function `mp_float32x2_length2`. -/
def mp_float32x2_length2 (v : mp_float32x2 K) : K := mp_float32x2_dot v v

/-- The function `mp_float32x2_distance2`. -/
def mp_float32x2_distance2 (v0 v1 : mp_float32x2 K) : K :=
  mp_float32x2_length2 (mp_float32x2_sub v0 v1)

/-- The function `mp_fabsf`, libm's `fabsf` read in exact arithmetic. -/
def mp_fabsf (x : K) : K := |x|

/-- A division that records a zero divisor: `none` when the C expression
`x / y` divides by zero, the quotient otherwise. -/
def checkedDiv (x y : K) : Option K := if y = 0 then none else some (x / y)

/-- `DEFINE_FUNCTION_div(mp_float32)`: `x / y`. -/
def mp_float32_div (x y : K) : K := x / y

/-- `DEFINE_FUNCTION_x4f(mp_float32)`. -/
def mp_float32x4f (x y z w : K) : mp_float32x4 K := { x := x, y := y, z := z, w := w }

/-- `DEFINE_FUNCTION_x4_mul1(mp_float32)`, as the macro is written: its
fourth component is `mp_float32_mul(v.z, a)`. -/
def mp_float32x4_mul1 (v : mp_float32x4 K) (a : K) : mp_float32x4 K :=
  mp_float32x4f (mp_float32_mul v.x a) (mp_float32_mul v.y a) (mp_float32_mul v.z a)
    (mp_float32_mul v.z a)

/-- The function `mp_float32x3_dot`. -/
def mp_float32x3_dot (v0 v1 : mp_float32x3 K) : K := v0.x * v1.x + v0.y * v1.y + v0.z * v1.z

/-- The function `mp_float32x4_dot`. -/
def mp_float32x4_dot (v0 v1 : mp_float32x4 K) : K :=
  v0.x * v1.x + v0.y * v1.y + v0.z * v1.z + v0.w * v1.w

/-- The function `mp_float32x3_length2`. -/
def mp_float32x3_length2 (v : mp_float32x3 K) : K := mp_float32x3_dot v v

/-- The function `mp_float32x4_length2`. -/
def mp_float32x4_length2 (v : mp_float32x4 K) : K := mp_float32x4_dot v v

/-- The function `mp_float32x2_length`; `mp_sqrtf32` wraps libm's `sqrtf`
and is an argument. -/
def mp_float32x2_length (mp_sqrtf32 : K → K) (v : mp_float32x2 K) : K :=
  mp_sqrtf32 (mp_float32x2_length2 v)

/-- The function `mp_float32x2_distance`; `mp_sqrtf32` is an argument. -/
def mp_float32x2_distance (mp_sqrtf32 : K → K) (v0 v1 : mp_float32x2 K) : K :=
  mp_sqrtf32 (mp_float32x2_distance2 v0 v1)

/-- The function `mp_float32x3_length`; `mp_sqrtf32` is an argument. -/
def mp_float32x3_length (mp_sqrtf32 : K → K) (v : mp_float32x3 K) : K :=
  mp_sqrtf32 (mp_float32x3_length2 v)

/-- The function `mp_float32x4_length`; `mp_sqrtf32` is an argument. -/
def mp_float32x4_length (mp_sqrtf32 : K → K) (v : mp_float32x4 K) : K :=
  mp_sqrtf32 (mp_float32x4_length2 v)

/-- The function `mp_float32x2_normalize`:
`mp_float32x2_mul1(v, 1.0f / mp_float32x2_length(v))`. -/
def mp_float32x2_normalize (mp_sqrtf32 : K → K) (v : mp_float32x2 K) : mp_float32x2 K :=
  mp_float32x2_mul1 v (1 / mp_float32x2_length mp_sqrtf32 v)

/-- The function `mp_float32x3_normalize`. -/
def mp_float32x3_normalize (mp_sqrtf32 : K → K) (v : mp_float32x3 K) : mp_float32x3 K :=
  mp_float32x3_mul1 v (1 / mp_float32x3_length mp_sqrtf32 v)

/-- The function `mp_float32x4_normalize`. -/
def mp_float32x4_normalize (mp_sqrtf32 : K → K) (v : mp_float32x4 K) : mp_float32x4 K :=
  mp_float32x4_mul1 v (1 / mp_float32x4_length mp_sqrtf32 v)

/-- The function `mp_float32x2_rotate`; `mp_sinf32` and `mp_cosf32` wrap
libm's `sinf` and `cosf` and are arguments. -/
def mp_float32x2_rotate (mp_sinf32 mp_cosf32 : K → K) (v : mp_float32x2 K)
    (angleInRadians : K) : mp_float32x2 K :=
  let s := mp_sinf32 angleInRadians
  let c := mp_cosf32 angleInRadians
  mp_float32x2f (v.x * c - v.y * s) (v.x * s + v.y * c)

/-- The function `mp_float32x2_perpendicular`. -/
def mp_float32x2_perpendicular (v : mp_float32x2 K) : mp_float32x2 K :=
  mp_float32x2f (-v.y) v.x

/-- The function `mp_float32x2_perpendicular_rev`. -/
def mp_float32x2_perpendicular_rev (v : mp_float32x2 K) : mp_float32x2 K :=
  mp_float32x2f v.y (-v.x)

/-- The function `mp_float32_sin`, which calls `mp_sinf32`. -/
def mp_float32_sin (mp_sinf32 : K → K) (x : K) : K := mp_sinf32 x

/-- The function `mp_float32_cos`, which calls `mp_cosf32`. -/
def mp_float32_cos (mp_cosf32 : K → K) (x : K) : K := mp_cosf32 x

/-- `DEFINE_FUNCTION_x2_from_angle(mp_float32)`. -/
def mp_float32x2_from_angle (mp_sinf32 mp_cosf32 : K → K) (angleInRadians : K) :
    mp_float32x2 K :=
  mp_float32x2f (mp_float32_cos mp_cosf32 angleInRadians)
    (mp_float32_sin mp_sinf32 angleInRadians)

/-- The macro `mp_one` of the `MP_USE_FLOAT32` configuration, `1.0f`. -/
def mp_one : K := 1

end Scalar

/-! ## Fixed point (`mp_fixed32` is 16.16 in a `mp_uint32`, `mp_fixed64` is 32.32 in a `mp_uint64`)

A raw fixed-point value is a natural number below `2 ^ 32` (below `2 ^ 64`
for `mp_fixed64`); every operation reduces its result into that range. -/

/-- The macro `MP_FIXED32_SHIFT`. -/
def MP_FIXED32_SHIFT : Nat := 16

/-- The macro `MP_FIXED64_SHIFT`. -/
def MP_FIXED64_SHIFT : Nat := 32

/-- The macro `MP_FIXED32_ONE`, `(mp_fixed32)1 << MP_FIXED32_SHIFT`. -/
def MP_FIXED32_ONE : Nat := (1 <<< MP_FIXED32_SHIFT) % 2 ^ 32

/-- The macro `MP_FIXED64_ONE`, `(mp_fixed64)1 << MP_FIXED64_SHIFT`. -/
def MP_FIXED64_ONE : Nat := (1 <<< MP_FIXED64_SHIFT) % 2 ^ 64

/-- The value a two's-complement `mp_int64` holds after an arithmetic result
`n`: `n` reduced into `[-2 ^ 63, 2 ^ 63)`.  (C leaves signed overflow
undefined; the wraparound of the usual targets is what is modelled.) -/
def wrapInt64 (n : Int) : Int := (n + 2 ^ 63) % 2 ^ 64 - 2 ^ 63

/-- The function `mp_fixed32_mul`: both operands are widened to `mp_int64`,
multiplied, shifted right by 16 (an arithmetic shift, i.e. the floor of the
division by `2 ^ 16`) and cast back to `mp_fixed32`. -/
def mp_fixed32_mul (x y : Nat) : Nat :=
  ((wrapInt64 ((x : Int) * (y : Int)) / 2 ^ MP_FIXED32_SHIFT) % 2 ^ 32).toNat

/-- The function `mp_fixed64_mul`: the product is formed in `mp_uint64`, so
it is reduced modulo `2 ^ 64` before the shift right by 32. -/
def mp_fixed64_mul (x y : Nat) : Nat :=
  ((x * y) % 2 ^ 64) >>> MP_FIXED64_SHIFT

/-- `DEFINE_FUNCTION_div(mp_fixed32)`: `x / y` on the raw `mp_uint32`
values.  (Division by zero, undefined in C, gives 0 here.) -/
def mp_fixed32_div (x y : Nat) : Nat := x / y

/-- `DEFINE_FUNCTION_div(mp_fixed64)`: `x / y` on the raw `mp_uint64`
values.  (Division by zero, undefined in C, gives 0 here.) -/
def mp_fixed64_div (x y : Nat) : Nat := x / y

/-- The two's-complement signed reading of a 32-bit raw value. -/
def int32Reading (x : Nat) : Int := if x < 2 ^ 31 then (x : Int) else (x : Int) - 2 ^ 32

section FixedConversions

variable {K : Type} [LinearOrderedField K] [FloorRing K]

/-- The C conversion of a floating value to an integer: truncation toward
zero. -/
def truncToInt (v : K) : Int := if 0 ≤ v then ⌊v⌋ else ⌈v⌉

/-- The function `mp_float32_from_fixed32`: `x / (mp_float32)MP_FIXED32_ONE`. -/
def mp_float32_from_fixed32 (x : Nat) : K := (x : K) / (MP_FIXED32_ONE : K)

/-- The function `mp_float64_from_fixed64`: `x / (mp_float64)MP_FIXED64_ONE`. -/
def mp_float64_from_fixed64 (x : Nat) : K := (x : K) / (MP_FIXED64_ONE : K)

/-- The function `mp_fixed32_from_float32`: `(mp_fixed32)(x * MP_FIXED32_ONE)`,
the cast truncating toward zero.  (A value outside the range of
`mp_uint32`, undefined in C, is reduced modulo `2 ^ 32`.) -/
def mp_fixed32_from_float32 (x : K) : Nat :=
  (truncToInt (x * (MP_FIXED32_ONE : K)) % 2 ^ 32).toNat

/-- The function `mp_fixed64_from_float64`: `(mp_fixed64)(x * MP_FIXED64_ONE)`,
the cast truncating toward zero.  (A value outside the range of
`mp_uint64`, undefined in C, is reduced modulo `2 ^ 64`.) -/
def mp_fixed64_from_float64 (x : K) : Nat :=
  (truncToInt (x * (MP_FIXED64_ONE : K)) % 2 ^ 64).toNat

end FixedConversions

/-! ## Geometric queries -/

section Geometry

variable {K : Type} [LinearOrderedField K]

/-- The function `mp_ray_line_intersection_float32x2`.  The result pairs the
returned `mp_bool32` with the content of `*pIntersectionPoint` after the
call (`none` when the pointer is null). -/
def mp_ray_line_intersection_float32x2 (rayO rayD : mp_float32x2 K) (lineA lineB lineC : K)
    (pIntersectionPoint : Option (mp_float32x2 K)) : Bool × Option (mp_float32x2 K) :=
  let t := lineA * rayD.x + lineB * rayD.y
  if t ≠ 0 then
    let t := -(lineC + lineA * rayO.x + lineB * rayO.y) / t
    if t < 0 then
      (false, pIntersectionPoint)
    else
      match pIntersectionPoint with
      | some _ => (true, some (mp_float32x2_add rayO (mp_float32x2_mul1 rayD t)))
      | none => (true, none)
  else
    (false, pIntersectionPoint)

/-- The function `mp_ray_line_segment_intersection_float32x2`.  The C local
`lineIntersection` is not initialised before its address is passed on, so
its indeterminate initial content is the explicit argument
`lineIntersection`; the result pairs the returned `mp_bool32` with the
content of `*pIntersectionPoint` after the call. -/
def mp_ray_line_segment_intersection_float32x2 (lineIntersection : mp_float32x2 K)
    (rayO rayD p0 p1 : mp_float32x2 K) (pIntersectionPoint : Option (mp_float32x2 K)) :
    Bool × Option (mp_float32x2 K) :=
  let d := mp_float32x2_sub p1 p0
  if d.x = 0 ∧ d.y = 0 then
    (false, pIntersectionPoint)
  else
    let n := mp_float32x2f (-d.y) d.x
    let c := d.y * p0.x - d.x * p0.y
    match mp_ray_line_intersection_float32x2 rayO rayD n.x n.y c (some lineIntersection) with
    | (true, some lineIntersection) =>
      let t :=
        if p0.x ≠ p1.x then
          (lineIntersection.x - p0.x) / (p1.x - p0.x)
        else
          (lineIntersection.y - p0.y) / (p1.y - p0.y)
      if t < 0 ∨ t > 1 then
        (false, pIntersectionPoint)
      else
        match pIntersectionPoint with
        | some _ =>
          (true, some (mp_float32x2_add p0 (mp_float32x2_mul1 (mp_float32x2_sub p1 p0) t)))
        | none => (true, none)
    | _ => (false, pIntersectionPoint)

/-- The geometric reading of "the ray intersects the line segment": some
point `O + s * D` of the ray with `s ≥ 0` is a point `p0 + u * (p1 - p0)`
of the segment with `u` in `[0, 1]`. -/
def RayMeetsSegment (rayO rayD p0 p1 : mp_float32x2 K) : Prop :=
  ∃ s u : K, 0 ≤ s ∧ 0 ≤ u ∧ u ≤ 1 ∧
    rayO.x + s * rayD.x = p0.x + u * (p1.x - p0.x) ∧
    rayO.y + s * rayD.y = p0.y + u * (p1.y - p0.y)

/-- The affine parameter `t` that `mp_ray_line_segment_intersection_float32x2`
computes for the point `lineIntersection`: along x when `p0.x != p1.x`,
along y otherwise. -/
def segParam (p0 p1 lineIntersection : mp_float32x2 K) : K :=
  if p0.x ≠ p1.x then
    (lineIntersection.x - p0.x) / (p1.x - p0.x)
  else
    (lineIntersection.y - p0.y) / (p1.y - p0.y)

/-- The function `mp_closest_point_on_plane_to_point`. -/
def mp_closest_point_on_plane_to_point (p : mp_float32x2 K) (planeA planeB planeC : K) :
    mp_float32x2 K :=
  let denom := planeA * planeA + planeB * planeB
  if denom = 0 then
    p
  else
    { x := (planeB * (planeB * p.x - planeA * p.y) - planeA * planeC) / denom
      y := (planeA * (planeA * p.y - planeB * p.x) - planeB * planeC) / denom }

/-- The function `mp_closest_point_on_plane_to_point` with its two divisions
recorded: `none` when one of them divides by zero. -/
def mp_closest_point_on_plane_to_point_checked (p : mp_float32x2 K)
    (planeA planeB planeC : K) : Option (mp_float32x2 K) :=
  let denom := planeA * planeA + planeB * planeB
  if denom = 0 then
    some p
  else
    (checkedDiv (planeB * (planeB * p.x - planeA * p.y) - planeA * planeC) denom).bind
      fun rx =>
        (checkedDiv (planeA * (planeA * p.y - planeB * p.x) - planeB * planeC) denom).bind
          fun ry => some { x := rx, y := ry }

/-- The function `mp_distance_point_to_plane`.  `mp_sqrtf32` wraps libm's
`sqrtf`, which is not part of the repository: it is the argument
`mp_sqrtf32`.  The division is the total one of the field. -/
def mp_distance_point_to_plane (mp_sqrtf32 : K → K) (p : mp_float32x2 K)
    (planeA planeB planeC : K) : K :=
  mp_fabsf (planeA * p.x + planeB * p.y + planeC) /
    mp_sqrtf32 (planeA * planeA + planeB * planeB)

/-- The function `mp_distance_point_to_plane` with its division recorded:
`none` when it divides by zero. -/
def mp_distance_point_to_plane_checked (mp_sqrtf32 : K → K) (p : mp_float32x2 K)
    (planeA planeB planeC : K) : Option K :=
  checkedDiv (mp_fabsf (planeA * p.x + planeB * p.y + planeC))
    (mp_sqrtf32 (planeA * planeA + planeB * planeB))

end Geometry

/-! ## Dynamics: data model -/

/-- The struct `mp_collision_world`: two unused members. -/
structure mp_collision_world (K : Type) where
  _unusedX : K
  _unusedV : mp_float32x3 K
deriving DecidableEq

/-- The struct `mp_dynamics_body`.  `isKinematic` is an `mp_bool32`: any
non-zero value counts as true. -/
structure mp_dynamics_body (K : Type) where
  position : mp_float32x3 K
  rotation : mp_float32x3x3 K
  linVelocity : mp_float32x3 K
  angVelocity : mp_float32x3 K
  mass : K
  isKinematic : Nat
deriving DecidableEq

/-- The capacity of the member `bodies[128]` of `mp_dynamics_world`. -/
def MP_BODY_CAPACITY : Nat := 128

/-- The struct `mp_dynamics_world`.  The array `bodies[128]` is a list of
slots; `bodyCount` is the number of slots the stepper visits. -/
structure mp_dynamics_world (K : Type) where
  collision : mp_collision_world K
  dt : K
  timestep : K
  gravity : mp_float32x3 K
  bodies : List (mp_dynamics_body K)
  bodyCount : Nat
deriving DecidableEq

/-- A world laid out as the C struct is: exactly 128 body slots, and a
`bodyCount` that stays inside the array. -/
def mp_dynamics_world.WellFormed {K : Type} (w : mp_dynamics_world K) : Prop :=
  w.bodies.length = MP_BODY_CAPACITY ∧ w.bodyCount ≤ MP_BODY_CAPACITY

/-- The struct `mp_collision_world_config`. -/
structure mp_collision_world_config (K : Type) where
  _unused : K
deriving DecidableEq

/-- The struct `mp_dynamics_world_config`. -/
structure mp_dynamics_world_config (K : Type) where
  collision : mp_collision_world_config K
  timestep : K
  gravity : mp_float32x3 K
deriving DecidableEq

/-- The result code `MP_SUCCESS`. -/
def MP_SUCCESS : Int := 0

/-- The result code `MP_INVALID_ARGS`. -/
def MP_INVALID_ARGS : Int := -2

section Dynamics

variable {K : Type} [LinearOrderedField K]

/-- What `MP_ZERO_OBJECT` leaves in an `mp_float32x3`. -/
def mp_float32x3_zero : mp_float32x3 K := { x := 0, y := 0, z := 0 }

/-- What `MP_ZERO_OBJECT` leaves in an `mp_collision_world`. -/
def mp_collision_world_zero : mp_collision_world K :=
  { _unusedX := 0, _unusedV := mp_float32x3_zero }

/-- What `MP_ZERO_OBJECT` leaves in one slot of `bodies`. -/
def mp_dynamics_body_zero : mp_dynamics_body K :=
  { position := mp_float32x3_zero
    rotation := { col0 := mp_float32x3_zero, col1 := mp_float32x3_zero, col2 := mp_float32x3_zero }
    linVelocity := mp_float32x3_zero
    angVelocity := mp_float32x3_zero
    mass := 0
    isKinematic := 0 }

/-- What `MP_ZERO_OBJECT(pDynamicsWorld)` leaves in an `mp_dynamics_world`. -/
def mp_dynamics_world_zero : mp_dynamics_world K :=
  { collision := mp_collision_world_zero
    dt := 0
    timestep := 0
    gravity := mp_float32x3_zero
    bodies := List.replicate MP_BODY_CAPACITY mp_dynamics_body_zero
    bodyCount := 0 }

/-- The function `mp_collision_world_init`: the result code and the content
of `*pCollisionWorld` after the call. -/
def mp_collision_world_init (_pConfig : mp_collision_world_config K)
    (pCollisionWorld : Option (mp_collision_world K)) : Int × Option (mp_collision_world K) :=
  match pCollisionWorld with
  | none => (MP_INVALID_ARGS, none)
  | some _ => (MP_SUCCESS, some mp_collision_world_zero)

/-- The function `mp_dynamics_world_init`: the result code and the content
of `*pDynamicsWorld` after the call.  `pConfig` is dereferenced without a
null check, so it is a value here. -/
def mp_dynamics_world_init (pConfig : mp_dynamics_world_config K)
    (pDynamicsWorld : Option (mp_dynamics_world K)) : Int × Option (mp_dynamics_world K) :=
  match pDynamicsWorld with
  | none => (MP_INVALID_ARGS, none)
  | some _ =>
    let w0 : mp_dynamics_world K := mp_dynamics_world_zero
    let w1 := { w0 with dt := 0 }
    let w2 := { w1 with timestep := pConfig.timestep }
    let w3 := { w2 with gravity := pConfig.gravity }
    let r := mp_collision_world_init pConfig.collision (some w3.collision)
    let w4 :=
      match r.2 with
      | some c => { w3 with collision := c }
      | none => w3
    if r.1 ≠ MP_SUCCESS then
      (r.1, some w4)
    else
      (MP_SUCCESS, some w4)

/-- The function `mp_collision_world_config_init`. -/
def mp_collision_world_config_init : mp_collision_world_config K :=
  let config : mp_collision_world_config K := { _unused := 0 }
  { config with _unused := 0 }

/-- The function `mp_dynamics_world_config_init` of the `MP_USE_FLOAT32`
configuration, where `mp_div` is `mp_float32_div` and `mp_vec3f` is
`mp_float32x3f`. -/
def mp_dynamics_world_config_init : mp_dynamics_world_config K :=
  let config : mp_dynamics_world_config K :=
    { collision := { _unused := 0 }, timestep := 0, gravity := mp_float32x3_zero }
  let config := { config with collision := mp_collision_world_config_init }
  let config := { config with timestep := mp_float32_div mp_one 144 }
  { config with gravity := mp_float32x3f 0 (-10 * mp_one) 0 }

/-- The function `mp_dynamics_world_init` with the collision world's
initialisation, the collaborator it calls, as the argument
`collisionInit`. -/
def mp_dynamics_world_init_with
    (collisionInit : mp_collision_world_config K → Option (mp_collision_world K) →
      Int × Option (mp_collision_world K))
    (pConfig : mp_dynamics_world_config K)
    (pDynamicsWorld : Option (mp_dynamics_world K)) : Int × Option (mp_dynamics_world K) :=
  match pDynamicsWorld with
  | none => (MP_INVALID_ARGS, none)
  | some _ =>
    let w0 : mp_dynamics_world K := mp_dynamics_world_zero
    let w1 := { w0 with dt := 0 }
    let w2 := { w1 with timestep := pConfig.timestep }
    let w3 := { w2 with gravity := pConfig.gravity }
    let r := collisionInit pConfig.collision (some w3.collision)
    let w4 :=
      match r.2 with
      | some c => { w3 with collision := c }
      | none => w3
    if r.1 ≠ MP_SUCCESS then
      (r.1, some w4)
    else
      (MP_SUCCESS, some w4)

/-- The body of the `for` loop of `mp_dynamics_world_step_fixed`, applied to
`*pBody`: a kinematic body is skipped; otherwise a body with `mass > 0` gets
`gravityStep` added to `linVelocity` and then the updated `linVelocity`
added to `position`; a body with any other mass is left alone. -/
def mp_dynamics_world_step_fixed_body (gravityStep : mp_float32x3 K)
    (pBody : mp_dynamics_body K) : mp_dynamics_body K :=
  if pBody.isKinematic ≠ 0 then
    pBody
  else
    if pBody.mass > 0 then
      let b1 := { pBody with linVelocity := mp_float32x3_add pBody.linVelocity gravityStep }
      { b1 with position := mp_float32x3_add b1.position b1.linVelocity }
    else
      pBody

/-- The `for (iBody = 0; iBody < bodyCount; iBody += 1)` loop of
`mp_dynamics_world_step_fixed`: `n` is the number of iterations still to
run and `iBody` the current index.  A slot outside the list (an index the C
array does not have) is skipped. -/
def mp_dynamics_world_step_fixed_loop (gravityStep : mp_float32x3 K) :
    Nat → Nat → List (mp_dynamics_body K) → List (mp_dynamics_body K)
  | 0, _, bodies => bodies
  | n + 1, iBody, bodies =>
    match bodies[iBody]? with
    | some pBody =>
      mp_dynamics_world_step_fixed_loop gravityStep n (iBody + 1)
        (bodies.set iBody (mp_dynamics_world_step_fixed_body gravityStep pBody))
    | none => mp_dynamics_world_step_fixed_loop gravityStep n (iBody + 1) bodies

/-- One fixed sub-step, `mp_dynamics_world_step_fixed`. -/
def mp_dynamics_world_step_fixed (w : mp_dynamics_world K) : mp_dynamics_world K :=
  let gravityStep := mp_float32x3_mul1 w.gravity w.timestep
  { w with bodies := mp_dynamics_world_step_fixed_loop gravityStep w.bodyCount 0 w.bodies }

/-- The `while (dt >= timestep)` loop of `mp_dynamics_world_step`, run with
fuel.  The first component of the result is a ghost counter: the number of
fixed sub-steps the loop performed. -/
def mp_dynamics_world_step_loop : Nat → mp_dynamics_world K → Option (Nat × mp_dynamics_world K)
  | 0, _ => none
  | fuel + 1, w =>
    if w.dt ≥ w.timestep then
      let w1 := mp_dynamics_world_step_fixed w
      let w2 := { w1 with dt := mp_float32_sub w1.dt w1.timestep }
      (mp_dynamics_world_step_loop fuel w2).map (fun r => (r.1 + 1, r.2))
    else
      some (0, w)

/-- The function `mp_dynamics_world_step` with its ghost sub-step counter.
The world pointer is an `Option`; with a null pointer the function returns
at once. -/
def mp_dynamics_world_step_count (fuel : Nat) (pDynamicsWorld : Option (mp_dynamics_world K))
    (dt : K) : Option (Nat × Option (mp_dynamics_world K)) :=
  match pDynamicsWorld with
  | none => some (0, none)
  | some w =>
    (mp_dynamics_world_step_loop fuel { w with dt := mp_float32_add w.dt dt }).map
      (fun r => (r.1, some r.2))

/-- The function `mp_dynamics_world_step`: the world the pointer refers to
after the call, or `none` when the fuel runs out. -/
def mp_dynamics_world_step (fuel : Nat) (pDynamicsWorld : Option (mp_dynamics_world K))
    (dt : K) : Option (Option (mp_dynamics_world K)) :=
  (mp_dynamics_world_step_count fuel pDynamicsWorld dt).map Prod.snd

/-- A finite sequence of calls of `mp_dynamics_world_step` on the same world
pointer, one call per delta time of the list, each run with `fuel`. -/
def mp_dynamics_world_step_seq (fuel : Nat) :
    Option (mp_dynamics_world K) → List K → Option (Option (mp_dynamics_world K))
  | pDynamicsWorld, [] => some pDynamicsWorld
  | pDynamicsWorld, dt :: dts =>
    (mp_dynamics_world_step fuel pDynamicsWorld dt).bind
      (fun pw => mp_dynamics_world_step_seq fuel pw dts)

/-- The world a returning call of `mp_dynamics_world_step` leaves when the
timestep is positive, in closed form: `⌊(dt + d) / timestep⌋₊` fixed
sub-steps, and the accumulator reduced by as many timesteps. -/
def stepResult [FloorRing K] (w : mp_dynamics_world K) (d : K) : mp_dynamics_world K :=
  { mp_dynamics_world_step_fixed^[⌊(w.dt + d) / w.timestep⌋₊] w with
    dt := w.dt + d - (⌊(w.dt + d) / w.timestep⌋₊ : K) * w.timestep }

end Dynamics

/-! ## Concrete worlds over `ℚ` -/

/-- A configuration with timestep 1 and gravity (0, -10, 0). -/
def unitConfig : mp_dynamics_world_config ℚ :=
  { collision := { _unused := 0 }, timestep := 1, gravity := { x := 0, y := -10, z := 0 } }

/-- A configuration with timestep 0 and gravity (0, -10, 0). -/
def zeroTimestepConfig : mp_dynamics_world_config ℚ :=
  { collision := { _unused := 0 }, timestep := 0, gravity := { x := 0, y := -10, z := 0 } }

/-- The world `mp_dynamics_world_init` leaves for a configuration with
timestep 1 and gravity (0, -10, 0). -/
def unitWorld : mp_dynamics_world ℚ :=
  { (mp_dynamics_world_zero : mp_dynamics_world ℚ) with
    timestep := 1
    gravity := { x := 0, y := -10, z := 0 } }

/-- The world `mp_dynamics_world_init` leaves for a configuration with
timestep 0, such as a zeroed configuration. -/
def zeroTimestepWorld : mp_dynamics_world ℚ :=
  { (mp_dynamics_world_zero : mp_dynamics_world ℚ) with
    timestep := 0
    gravity := { x := 0, y := -10, z := 0 } }

/-- A dynamic body at rest at the origin, mass 1. -/
def dynamicBody : mp_dynamics_body ℚ :=
  { (mp_dynamics_body_zero : mp_dynamics_body ℚ) with mass := 1 }

/-- A static body (mass 0) at (1, 2, 3). -/
def staticBody : mp_dynamics_body ℚ :=
  { (mp_dynamics_body_zero : mp_dynamics_body ℚ) with position := { x := 1, y := 2, z := 3 } }

/-- A kinematic body of mass 2 at (4, 5, 6) moving with velocity (1, 0, 0). -/
def kinematicBody : mp_dynamics_body ℚ :=
  { (mp_dynamics_body_zero : mp_dynamics_body ℚ) with
    position := { x := 4, y := 5, z := 6 }
    linVelocity := { x := 1, y := 0, z := 0 }
    mass := 2
    isKinematic := 1 }

/-- The world of the gravity test case: gravity (0, -10, 0), timestep 1, one
dynamic body of mass 1 at rest at the origin. -/
def gravityWorld : mp_dynamics_world ℚ :=
  { unitWorld with
    bodies := dynamicBody :: List.replicate 127 mp_dynamics_body_zero
    bodyCount := 1 }

/-- A world with a dynamic, a static and a kinematic body. -/
def mixedWorld : mp_dynamics_world ℚ :=
  { unitWorld with
    bodies := dynamicBody :: staticBody :: kinematicBody :: List.replicate 125 mp_dynamics_body_zero
    bodyCount := 3 }

section DynamicsLemmas

variable {K : Type} [LinearOrderedField K]

theorem step_fixed_loop_getElem? (gs : mp_float32x3 K) :
    ∀ (n iBody : Nat) (bodies : List (mp_dynamics_body K)) (j : Nat),
      (mp_dynamics_world_step_fixed_loop gs n iBody bodies)[j]? =
        if iBody ≤ j ∧ j < iBody + n then
          (bodies[j]?).map (mp_dynamics_world_step_fixed_body gs)
        else bodies[j]? := by
  intro n
  induction n with
  | zero =>
    intro iBody bodies j
    have h : ¬ (iBody ≤ j ∧ j < iBody + 0) := by omega
    rw [mp_dynamics_world_step_fixed_loop, if_neg h]
  | succ n ih =>
    intro iBody bodies j
    rw [mp_dynamics_world_step_fixed_loop]
    cases hb : bodies[iBody]? with
    | none =>
      simp only
      rw [ih]
      by_cases hj : j = iBody
      · subst hj
        have h1 : ¬ (j + 1 ≤ j ∧ j < j + 1 + n) := by omega
        have h2 : j ≤ j ∧ j < j + (n + 1) := by omega
        simp [h1, h2, hb]
      · by_cases h1 : iBody + 1 ≤ j ∧ j < iBody + 1 + n
        · have h2 : iBody ≤ j ∧ j < iBody + (n + 1) := by omega
          simp [h1, h2]
        · have h2 : ¬ (iBody ≤ j ∧ j < iBody + (n + 1)) := by omega
          simp [h1, h2]
    | some b =>
      simp only
      rw [ih, List.getElem?_set]
      by_cases hj : j = iBody
      · subst hj
        have h1 : ¬ (j + 1 ≤ j ∧ j < j + 1 + n) := by omega
        have h2 : j ≤ j ∧ j < j + (n + 1) := by omega
        have h3 : j < bodies.length := by
          rcases List.getElem?_eq_some.1 hb with ⟨h, _⟩
          exact h
        simp [h1, h2, hb, h3]
      · have hne : ¬ iBody = j := fun h => hj h.symm
        by_cases h1 : iBody + 1 ≤ j ∧ j < iBody + 1 + n
        · have h2 : iBody ≤ j ∧ j < iBody + (n + 1) := by omega
          simp [h1, h2, hne]
        · have h2 : ¬ (iBody ≤ j ∧ j < iBody + (n + 1)) := by omega
          simp [h1, h2, hne]

theorem step_fixed_bodies_getElem? (w : mp_dynamics_world K) (j : Nat) :
    (mp_dynamics_world_step_fixed w).bodies[j]? =
      if j < w.bodyCount then
        (w.bodies[j]?).map
          (mp_dynamics_world_step_fixed_body (mp_float32x3_mul1 w.gravity w.timestep))
      else w.bodies[j]? := by
  simp [mp_dynamics_world_step_fixed, step_fixed_loop_getElem?]

theorem step_fixed_loop_length (gs : mp_float32x3 K) :
    ∀ (n iBody : Nat) (bodies : List (mp_dynamics_body K)),
      (mp_dynamics_world_step_fixed_loop gs n iBody bodies).length = bodies.length := by
  intro n
  induction n with
  | zero => intro iBody bodies; rfl
  | succ n ih =>
    intro iBody bodies
    rw [mp_dynamics_world_step_fixed_loop]
    cases hb : bodies[iBody]? with
    | none => exact ih _ _
    | some b =>
      simp only
      rw [ih, List.length_set]

theorem step_fixed_wellFormed (w : mp_dynamics_world K) (h : w.WellFormed) :
    (mp_dynamics_world_step_fixed w).WellFormed :=
  ⟨(step_fixed_loop_length _ _ _ _).trans h.1, h.2⟩

theorem mp_dynamics_world_zero_wellFormed :
    (mp_dynamics_world_zero : mp_dynamics_world K).WellFormed :=
  ⟨List.length_replicate _ _, Nat.zero_le _⟩

theorem unitWorld_wellFormed : unitWorld.WellFormed :=
  ⟨List.length_replicate _ _, Nat.zero_le _⟩

theorem zeroTimestepWorld_wellFormed : zeroTimestepWorld.WellFormed :=
  ⟨List.length_replicate _ _, Nat.zero_le _⟩

theorem gravityWorld_wellFormed : gravityWorld.WellFormed := by
  refine ⟨?_, by decide⟩
  simp only [gravityWorld, List.length_cons, List.length_replicate, MP_BODY_CAPACITY]

theorem mixedWorld_wellFormed : mixedWorld.WellFormed := by
  refine ⟨?_, by decide⟩
  simp only [mixedWorld, List.length_cons, List.length_replicate, MP_BODY_CAPACITY]

end DynamicsLemmas

/-! ## Lemmas on the accumulator loop -/

section StepLemmas

variable {K : Type} [LinearOrderedField K]

theorem step_fixed_with_dt (w : mp_dynamics_world K) (x : K) :
    mp_dynamics_world_step_fixed { w with dt := x } =
      { mp_dynamics_world_step_fixed w with dt := x } := rfl

theorem step_fixed_iterate_with_dt (n : Nat) :
    ∀ (w : mp_dynamics_world K) (x : K),
      mp_dynamics_world_step_fixed^[n] { w with dt := x } =
        { mp_dynamics_world_step_fixed^[n] w with dt := x } := by
  induction n with
  | zero => intro w x; rfl
  | succ n ih =>
    intro w x
    rw [Function.iterate_succ_apply, Function.iterate_succ_apply, step_fixed_with_dt, ih]

theorem step_fixed_iterate_frame (n : Nat) :
    ∀ (w : mp_dynamics_world K),
      (mp_dynamics_world_step_fixed^[n] w).timestep = w.timestep ∧
      (mp_dynamics_world_step_fixed^[n] w).dt = w.dt ∧
      (mp_dynamics_world_step_fixed^[n] w).gravity = w.gravity ∧
      (mp_dynamics_world_step_fixed^[n] w).bodyCount = w.bodyCount ∧
      (mp_dynamics_world_step_fixed^[n] w).collision = w.collision := by
  induction n with
  | zero => intro w; simp
  | succ n ih =>
    intro w
    rw [Function.iterate_succ_apply]
    exact ih (mp_dynamics_world_step_fixed w)

theorem step_loop_mono :
    ∀ (fuel : Nat) (w : mp_dynamics_world K) (r : Nat × mp_dynamics_world K),
      mp_dynamics_world_step_loop fuel w = some r →
        ∀ k, mp_dynamics_world_step_loop (fuel + k) w = some r := by
  intro fuel
  induction fuel with
  | zero => intro w r h; simp [mp_dynamics_world_step_loop] at h
  | succ fuel ih =>
    intro w r h k
    have hk : fuel + 1 + k = (fuel + k) + 1 := by omega
    rw [hk]
    rw [mp_dynamics_world_step_loop] at h ⊢
    by_cases hc : w.dt ≥ w.timestep
    · rw [if_pos hc] at h ⊢
      simp only [Option.map_eq_some'] at h ⊢
      obtain ⟨r1, h1, h2⟩ := h
      exact ⟨r1, ih _ r1 h1 k, h2⟩
    · rw [if_neg hc] at h ⊢
      exact h

theorem step_loop_exit (fuel : Nat) (w : mp_dynamics_world K) (h : w.dt < w.timestep) :
    mp_dynamics_world_step_loop (fuel + 1) w = some (0, w) := by
  rw [mp_dynamics_world_step_loop, if_neg (not_le.2 h)]

theorem step_loop_diverges :
    ∀ (fuel : Nat) (w : mp_dynamics_world K), w.timestep ≤ 0 → w.timestep ≤ w.dt →
      mp_dynamics_world_step_loop fuel w = none := by
  intro fuel
  induction fuel with
  | zero => intro w _ _; rfl
  | succ fuel ih =>
    intro w hT h
    rw [mp_dynamics_world_step_loop, if_pos h]
    have h2 : mp_dynamics_world_step_loop fuel
        { mp_dynamics_world_step_fixed w with
          dt := mp_float32_sub (mp_dynamics_world_step_fixed w).dt
            (mp_dynamics_world_step_fixed w).timestep } = none := by
      apply ih
      · exact hT
      · show w.timestep ≤ w.dt - w.timestep
        linarith
    simp only [h2, Option.map_none']

theorem step_loop_spec :
    ∀ (n : Nat) (w : mp_dynamics_world K), 0 < w.timestep →
      (n : K) * w.timestep ≤ w.dt → w.dt < ((n : K) + 1) * w.timestep →
      ∀ fuel, n < fuel →
        mp_dynamics_world_step_loop fuel w =
          some (n, { mp_dynamics_world_step_fixed^[n] w with
                     dt := w.dt - (n : K) * w.timestep }) := by
  intro n
  induction n with
  | zero =>
    intro w _ _ h2 fuel hf
    obtain ⟨f, rfl⟩ : ∃ f, fuel = f + 1 := ⟨fuel - 1, by omega⟩
    have h3 : w.dt < w.timestep := by simpa using h2
    rw [step_loop_exit f w h3]
    simp
  | succ n ih =>
    intro w hT h1 h2 fuel hf
    obtain ⟨f, rfl⟩ : ∃ f, fuel = f + 1 := ⟨fuel - 1, by omega⟩
    have hn : (0 : K) ≤ (n : K) * w.timestep := mul_nonneg (Nat.cast_nonneg n) hT.le
    push_cast at h1 h2
    have hc : w.dt ≥ w.timestep := by nlinarith
    rw [mp_dynamics_world_step_loop, if_pos hc]
    have key := ih { mp_dynamics_world_step_fixed w with
          dt := mp_float32_sub (mp_dynamics_world_step_fixed w).dt
            (mp_dynamics_world_step_fixed w).timestep } hT
        (by show (n : K) * w.timestep ≤ w.dt - w.timestep; linarith)
        (by show w.dt - w.timestep < ((n : K) + 1) * w.timestep; linarith)
        f (by omega)
    simp only [key, Option.map_some']
    rw [step_fixed_iterate_with_dt, Function.iterate_succ_apply]
    have e : mp_float32_sub (mp_dynamics_world_step_fixed w).dt
        (mp_dynamics_world_step_fixed w).timestep -
          (n : K) * (mp_dynamics_world_step_fixed w).timestep =
        w.dt - ((n : K) + 1) * w.timestep := by
      show w.dt - w.timestep - (n : K) * w.timestep = w.dt - ((n : K) + 1) * w.timestep
      ring
    simp only [e, Nat.cast_add, Nat.cast_one]

theorem step_loop_bounds :
    ∀ (fuel : Nat) (w : mp_dynamics_world K) (r : Nat × mp_dynamics_world K),
      mp_dynamics_world_step_loop fuel w = some r →
        r.2.timestep = w.timestep ∧ r.2.dt < r.2.timestep ∧ (0 ≤ w.dt → 0 ≤ r.2.dt) := by
  intro fuel
  induction fuel with
  | zero => intro w r h; simp [mp_dynamics_world_step_loop] at h
  | succ fuel ih =>
    intro w r h
    rw [mp_dynamics_world_step_loop] at h
    by_cases hc : w.dt ≥ w.timestep
    · rw [if_pos hc] at h
      simp only [Option.map_eq_some'] at h
      obtain ⟨r1, h1, rfl⟩ := h
      obtain ⟨e1, e2, e3⟩ := ih _ r1 h1
      refine ⟨e1, e2, fun h0 => ?_⟩
      by_cases hpos : 0 ≤ w.timestep
      · apply e3
        show 0 ≤ w.dt - w.timestep
        linarith
      · exfalso
        have hd := step_loop_diverges fuel
          { mp_dynamics_world_step_fixed w with
            dt := mp_float32_sub (mp_dynamics_world_step_fixed w).dt
              (mp_dynamics_world_step_fixed w).timestep }
          (by show w.timestep ≤ 0; linarith)
          (by show w.timestep ≤ w.dt - w.timestep; linarith)
        rw [hd] at h1
        exact Option.noConfusion h1
    · rw [if_neg hc] at h
      obtain rfl : (0, w) = r := Option.some.inj h
      exact ⟨rfl, not_le.1 hc, fun h0 => h0⟩

end StepLemmas

/-! ## Lemmas on `mp_dynamics_world_step` -/

section StepCallLemmas

variable {K : Type} [LinearOrderedField K]

theorem step_count_some (fuel : Nat) (w : mp_dynamics_world K) (d : K) :
    mp_dynamics_world_step_count fuel (some w) d =
      (mp_dynamics_world_step_loop fuel { w with dt := w.dt + d }).map
        (fun r => (r.1, some r.2)) := rfl

theorem step_some (fuel : Nat) (w : mp_dynamics_world K) (d : K) :
    mp_dynamics_world_step fuel (some w) d =
      (mp_dynamics_world_step_loop fuel { w with dt := w.dt + d }).map
        (fun r => some r.2) := by
  rw [mp_dynamics_world_step, step_count_some, Option.map_map]
  rfl

theorem step_eq_some_iff (fuel : Nat) (w w1 : mp_dynamics_world K) (d : K) :
    mp_dynamics_world_step fuel (some w) d = some (some w1) ↔
      ∃ n, mp_dynamics_world_step_loop fuel { w with dt := w.dt + d } = some (n, w1) := by
  rw [step_some]
  constructor
  · intro h
    obtain ⟨r, h1, h2⟩ := Option.map_eq_some'.1 h
    refine ⟨r.1, ?_⟩
    rw [h1]
    have : r.2 = w1 := Option.some.inj h2
    rw [← this]
  · rintro ⟨n, h⟩
    rw [h]
    rfl

theorem step_mono (fuel : Nat) (pw r : Option (mp_dynamics_world K)) (d : K)
    (h : mp_dynamics_world_step fuel pw d = some r) (k : Nat) :
    mp_dynamics_world_step (fuel + k) pw d = some r := by
  cases pw with
  | none => exact h
  | some w =>
    rw [step_some] at h ⊢
    obtain ⟨r1, h1, h2⟩ := Option.map_eq_some'.1 h
    rw [step_loop_mono fuel _ r1 h1 k]
    exact congrArg some h2

theorem step_count_floor [FloorRing K] (w : mp_dynamics_world K) (d : K)
    (hT : 0 < w.timestep) (fuel : Nat) (hf : ⌊(w.dt + d) / w.timestep⌋₊ < fuel) :
    mp_dynamics_world_step_count fuel (some w) d =
      some (⌊(w.dt + d) / w.timestep⌋₊, some (stepResult w d)) := by
  rw [step_count_some]
  by_cases hx : 0 ≤ w.dt + d
  · have hq : 0 ≤ (w.dt + d) / w.timestep := div_nonneg hx hT.le
    have h1 : (⌊(w.dt + d) / w.timestep⌋₊ : K) * w.timestep ≤ w.dt + d :=
      (le_div_iff₀ hT).1 (Nat.floor_le hq)
    have h2 : w.dt + d < ((⌊(w.dt + d) / w.timestep⌋₊ : K) + 1) * w.timestep :=
      (div_lt_iff₀ hT).1 (Nat.lt_floor_add_one _)
    rw [step_loop_spec ⌊(w.dt + d) / w.timestep⌋₊ { w with dt := w.dt + d } hT h1 h2 fuel hf,
      step_fixed_iterate_with_dt]
    rfl
  · have hneg : w.dt + d < 0 := not_le.1 hx
    have hq : (w.dt + d) / w.timestep ≤ 0 := (div_neg_of_neg_of_pos hneg hT).le
    have hz : ⌊(w.dt + d) / w.timestep⌋₊ = 0 := Nat.floor_of_nonpos hq
    obtain ⟨f, rfl⟩ : ∃ f, fuel = f + 1 := ⟨fuel - 1, by omega⟩
    have hlt : ({ w with dt := w.dt + d } : mp_dynamics_world K).dt <
        ({ w with dt := w.dt + d } : mp_dynamics_world K).timestep := by
      show w.dt + d < w.timestep
      linarith
    rw [step_loop_exit f _ hlt]
    simp [stepResult, hz]

theorem step_floor [FloorRing K] (w : mp_dynamics_world K) (d : K)
    (hT : 0 < w.timestep) (fuel : Nat) (hf : ⌊(w.dt + d) / w.timestep⌋₊ < fuel) :
    mp_dynamics_world_step fuel (some w) d = some (some (stepResult w d)) := by
  rw [mp_dynamics_world_step, step_count_floor w d hT fuel hf]
  rfl

theorem stepResult_timestep [FloorRing K] (w : mp_dynamics_world K) (d : K) :
    (stepResult w d).timestep = w.timestep :=
  (step_fixed_iterate_frame _ w).1

theorem stepResult_eq [FloorRing K] (w : mp_dynamics_world K) (d : K) :
    stepResult w d =
      { mp_dynamics_world_step_fixed^[⌊(w.dt + d) / w.timestep⌋₊] w with
        dt := w.dt + d - (⌊(w.dt + d) / w.timestep⌋₊ : K) * w.timestep } := rfl

theorem iterate_stepResult [FloorRing K] (N : Nat) (w : mp_dynamics_world K) (d : K) :
    mp_dynamics_world_step_fixed^[N] (stepResult w d) =
      { mp_dynamics_world_step_fixed^[N + ⌊(w.dt + d) / w.timestep⌋₊] w with
        dt := (stepResult w d).dt } := by
  rw [stepResult_eq, step_fixed_iterate_with_dt, ← Function.iterate_add_apply]

theorem stepResult_compose [FloorRing K] (w : mp_dynamics_world K) (d1 d2 : K)
    (hT : 0 < w.timestep) (hd2 : 0 ≤ d2) :
    stepResult (stepResult w d1) d2 = stepResult w (d1 + d2) := by
  have hts : (stepResult w d1).timestep = w.timestep := stepResult_timestep w d1
  have hdt : (stepResult w d1).dt =
      w.dt + d1 - (⌊(w.dt + d1) / w.timestep⌋₊ : K) * w.timestep := rfl
  have hx : ((stepResult w d1).dt + d2) / (stepResult w d1).timestep =
      (w.dt + (d1 + d2)) / w.timestep - (⌊(w.dt + d1) / w.timestep⌋₊ : K) := by
    rw [hts, hdt]
    field_simp
    ring
  have hle : ⌊(w.dt + d1) / w.timestep⌋₊ ≤ ⌊(w.dt + (d1 + d2)) / w.timestep⌋₊ := by
    apply Nat.floor_mono
    apply div_le_div_of_nonneg_right _ hT.le
    linarith
  have hn : ⌊((stepResult w d1).dt + d2) / (stepResult w d1).timestep⌋₊ =
      ⌊(w.dt + (d1 + d2)) / w.timestep⌋₊ - ⌊(w.dt + d1) / w.timestep⌋₊ := by
    rw [hx, Nat.floor_sub_nat]
  have hsum : (⌊(w.dt + (d1 + d2)) / w.timestep⌋₊ - ⌊(w.dt + d1) / w.timestep⌋₊) +
      ⌊(w.dt + d1) / w.timestep⌋₊ = ⌊(w.dt + (d1 + d2)) / w.timestep⌋₊ :=
    Nat.sub_add_cancel hle
  have hcast : ((⌊(w.dt + (d1 + d2)) / w.timestep⌋₊ - ⌊(w.dt + d1) / w.timestep⌋₊ : Nat) : K) =
      (⌊(w.dt + (d1 + d2)) / w.timestep⌋₊ : K) - (⌊(w.dt + d1) / w.timestep⌋₊ : K) :=
    Nat.cast_sub hle
  have hNn : ⌊((stepResult w d1).dt + d2) / (stepResult w d1).timestep⌋₊ +
      ⌊(w.dt + d1) / w.timestep⌋₊ = ⌊(w.dt + (d1 + d2)) / w.timestep⌋₊ := by
    rw [hn, hsum]
  have hacc : (stepResult w d1).dt + d2 -
      (⌊((stepResult w d1).dt + d2) / (stepResult w d1).timestep⌋₊ : K) *
        (stepResult w d1).timestep =
      w.dt + (d1 + d2) - (⌊(w.dt + (d1 + d2)) / w.timestep⌋₊ : K) * w.timestep := by
    rw [hn, hcast, hts, hdt]
    ring
  rw [stepResult_eq (stepResult w d1) d2, iterate_stepResult, hNn, hacc]
  rfl

end StepCallLemmas

/-! ## Bodies the integrator leaves alone -/

section InertLemmas

variable {K : Type} [LinearOrderedField K]

theorem step_fixed_body_inert (gs : mp_float32x3 K) (b : mp_dynamics_body K)
    (h : b.isKinematic ≠ 0 ∨ ¬ 0 < b.mass) :
    mp_dynamics_world_step_fixed_body gs b = b := by
  unfold mp_dynamics_world_step_fixed_body
  rcases h with h | h
  · rw [if_pos h]
  · by_cases hk : b.isKinematic ≠ 0
    · rw [if_pos hk]
    · rw [if_neg hk, if_neg h]

theorem step_fixed_inert (w : mp_dynamics_world K) (j : Nat) (b : mp_dynamics_body K)
    (hb : w.bodies[j]? = some b) (h : b.isKinematic ≠ 0 ∨ ¬ 0 < b.mass) :
    (mp_dynamics_world_step_fixed w).bodies[j]? = some b := by
  rw [step_fixed_bodies_getElem?, hb]
  by_cases hj : j < w.bodyCount
  · rw [if_pos hj, Option.map_some', step_fixed_body_inert _ b h]
  · rw [if_neg hj]

theorem step_loop_inert :
    ∀ (fuel : Nat) (w : mp_dynamics_world K) (r : Nat × mp_dynamics_world K),
      mp_dynamics_world_step_loop fuel w = some r →
        ∀ (j : Nat) (b : mp_dynamics_body K), w.bodies[j]? = some b →
          (b.isKinematic ≠ 0 ∨ ¬ 0 < b.mass) → r.2.bodies[j]? = some b := by
  intro fuel
  induction fuel with
  | zero => intro w r h; simp [mp_dynamics_world_step_loop] at h
  | succ fuel ih =>
    intro w r h j b hb hin
    rw [mp_dynamics_world_step_loop] at h
    by_cases hc : w.dt ≥ w.timestep
    · rw [if_pos hc] at h
      obtain ⟨r1, h1, rfl⟩ := Option.map_eq_some'.1 h
      exact ih _ r1 h1 j b (step_fixed_inert w j b hb hin) hin
    · rw [if_neg hc] at h
      obtain rfl : (0, w) = r := Option.some.inj h
      exact hb

theorem step_inert (fuel : Nat) (w w1 : mp_dynamics_world K) (d : K)
    (h : mp_dynamics_world_step fuel (some w) d = some (some w1))
    (j : Nat) (b : mp_dynamics_body K) (hb : w.bodies[j]? = some b)
    (hin : b.isKinematic ≠ 0 ∨ ¬ 0 < b.mass) : w1.bodies[j]? = some b := by
  obtain ⟨n, hn⟩ := (step_eq_some_iff fuel w w1 d).1 h
  exact step_loop_inert fuel _ _ hn j b hb hin

theorem step_some_ptr (fuel : Nat) (w : mp_dynamics_world K) (d : K)
    (pw : Option (mp_dynamics_world K))
    (h : mp_dynamics_world_step fuel (some w) d = some pw) : ∃ w1, pw = some w1 := by
  rw [step_some] at h
  obtain ⟨r, _, h2⟩ := Option.map_eq_some'.1 h
  exact ⟨r.2, h2.symm⟩

theorem step_seq_inert (fuel : Nat) :
    ∀ (ds : List K) (w w1 : mp_dynamics_world K),
      mp_dynamics_world_step_seq fuel (some w) ds = some (some w1) →
        ∀ (j : Nat) (b : mp_dynamics_body K), w.bodies[j]? = some b →
          (b.isKinematic ≠ 0 ∨ ¬ 0 < b.mass) → w1.bodies[j]? = some b := by
  intro ds
  induction ds with
  | nil =>
    intro w w1 h j b hb _
    rw [mp_dynamics_world_step_seq] at h
    obtain rfl : w = w1 := Option.some.inj (Option.some.inj h)
    exact hb
  | cons d ds ih =>
    intro w w1 h j b hb hin
    rw [mp_dynamics_world_step_seq] at h
    obtain ⟨pw, h1, h2⟩ := Option.bind_eq_some.1 h
    obtain ⟨w2, rfl⟩ := step_some_ptr fuel w d pw h1
    exact ih w2 w1 h2 j b (step_inert fuel w w2 d h1 j b hb hin) hin

theorem step_seq_floor [FloorRing K] :
    ∀ (ds : List K) (w : mp_dynamics_world K), 0 < w.timestep →
      ∃ fuel, ∀ fuel1, fuel ≤ fuel1 →
        mp_dynamics_world_step_seq fuel1 (some w) ds = some (some (ds.foldl stepResult w)) := by
  intro ds
  induction ds with
  | nil =>
    intro w _
    exact ⟨0, fun _ _ => rfl⟩
  | cons d ds ih =>
    intro w hT
    have hT1 : 0 < (stepResult w d).timestep := by
      rw [stepResult_timestep]
      exact hT
    obtain ⟨f2, h2⟩ := ih (stepResult w d) hT1
    refine ⟨max (⌊(w.dt + d) / w.timestep⌋₊ + 1) f2, fun fuel1 hf => ?_⟩
    have hf1 : ⌊(w.dt + d) / w.timestep⌋₊ < fuel1 := by
      have := le_max_left (⌊(w.dt + d) / w.timestep⌋₊ + 1) f2
      omega
    have hf2 : f2 ≤ fuel1 := le_trans (le_max_right _ _) hf
    rw [mp_dynamics_world_step_seq, step_floor w d hT fuel1 hf1]
    exact h2 fuel1 hf2

theorem init_unitWorld (w : mp_dynamics_world ℚ) :
    mp_dynamics_world_init unitConfig (some w) = (MP_SUCCESS, some unitWorld) := by
  simp [mp_dynamics_world_init, mp_collision_world_init, unitWorld, unitConfig,
    mp_dynamics_world_zero]

theorem init_zeroTimestepWorld (w : mp_dynamics_world ℚ) :
    mp_dynamics_world_init zeroTimestepConfig (some w) = (MP_SUCCESS, some zeroTimestepWorld) := by
  simp [mp_dynamics_world_init, mp_collision_world_init, zeroTimestepWorld, zeroTimestepConfig,
    mp_dynamics_world_zero]

end InertLemmas

/-! ## The stepper: claims C1 to C7 -/

section StepperClaims

variable {K : Type} [LinearOrderedField K]

/-- C1, as stated, fails: on the world `mp_dynamics_world_init` leaves for
timestep 1, a call of `mp_dynamics_world_step` with delta time -1 returns
with the accumulator at -1, which is not in `[0, timestep)`. -/
theorem C1_counterexample_negative_delta :
    ∃ w0 w1 : mp_dynamics_world ℚ,
      (mp_dynamics_world_init unitConfig (some mp_dynamics_world_zero)).2 = some w0 ∧
      mp_dynamics_world_step 1 (some w0) (-1) = some (some w1) ∧
      w1.dt = -1 ∧ ¬ (0 ≤ w1.dt ∧ w1.dt < w1.timestep) := by
  refine ⟨unitWorld, { unitWorld with dt := unitWorld.dt + (-1) }, ?_, ?_, ?_, ?_⟩
  · rw [init_unitWorld]
  · rw [step_some, step_loop_exit 0 _ (by norm_num [unitWorld, mp_dynamics_world_zero])]
    rfl
  · norm_num [unitWorld, mp_dynamics_world_zero]
  · norm_num [unitWorld, mp_dynamics_world_zero]

/-- C1 (amended): for every world and every delta time `d` with
accumulator + `d` ≥ 0, after `mp_dynamics_world_step` returns, the
accumulator `dt` it leaves satisfies `0 ≤ dt < timestep`. -/
theorem C1_accumulator_in_range_after_step (w : mp_dynamics_world K) (d : K)
    (h : 0 ≤ w.dt + d) (fuel : Nat) (w1 : mp_dynamics_world K)
    (hret : mp_dynamics_world_step fuel (some w) d = some (some w1)) :
    0 ≤ w1.dt ∧ w1.dt < w1.timestep := by
  obtain ⟨n, hn⟩ := (step_eq_some_iff fuel w w1 d).1 hret
  obtain ⟨_, e2, e3⟩ := step_loop_bounds fuel _ _ hn
  exact ⟨e3 h, e2⟩

/-- C1 (amended) at a concrete input: on the initialised world with
timestep 1 the call with delta time 5/2 returns, with fuel 3, and leaves the
accumulator at 1/2. -/
theorem C1_accumulator_in_range_after_step_witness :
    (0 : ℚ) ≤ unitWorld.dt + 5 / 2 ∧
      mp_dynamics_world_step 3 (some unitWorld) (5 / 2) =
        some (some (stepResult unitWorld (5 / 2))) ∧
      (stepResult unitWorld (5 / 2)).dt = 1 / 2 ∧
      0 ≤ (stepResult unitWorld (5 / 2)).dt ∧
      (stepResult unitWorld (5 / 2)).dt < (stepResult unitWorld (5 / 2)).timestep := by
  have h0 : (0 : ℚ) ≤ unitWorld.dt + 5 / 2 := by norm_num [unitWorld, mp_dynamics_world_zero]
  have hT : 0 < unitWorld.timestep := by norm_num [unitWorld]
  have hq : (unitWorld.dt + 5 / 2) / unitWorld.timestep = 5 / 2 := by
    norm_num [unitWorld, mp_dynamics_world_zero]
  have hn : ⌊(unitWorld.dt + 5 / 2) / unitWorld.timestep⌋₊ = 2 := by
    rw [hq, Nat.floor_eq_iff (by norm_num)]
    norm_num
  have hret : mp_dynamics_world_step 3 (some unitWorld) (5 / 2) =
      some (some (stepResult unitWorld (5 / 2))) :=
    step_floor unitWorld (5 / 2) hT 3 (by rw [hn]; norm_num)
  have hdt : (stepResult unitWorld (5 / 2)).dt = 1 / 2 := by
    show unitWorld.dt + 5 / 2 -
      ((⌊(unitWorld.dt + 5 / 2) / unitWorld.timestep⌋₊ : Nat) : ℚ) * unitWorld.timestep = 1 / 2
    rw [hn]
    norm_num [unitWorld, mp_dynamics_world_zero]
  have key := C1_accumulator_in_range_after_step unitWorld (5 / 2) h0 3 _ hret
  exact ⟨h0, hret, hdt, key.1, key.2⟩

/-- C2: for a world with timestep `T > 0` and accumulator in `[0, T)`, and
delta times `d1, d2 ≥ 0`, the call with `d1` followed by the call with `d2`
returns the same world as the single call with `d1 + d2`; in particular the
calls with `T`, `T`, `T / 2` in sequence return the same world as the single
call with `5 / 2 * T`. -/
theorem C2_accumulator_ignores_call_boundaries [FloorRing K] (w : mp_dynamics_world K)
    (d1 d2 : K) (hT : 0 < w.timestep) (_ha0 : 0 ≤ w.dt) (_ha1 : w.dt < w.timestep)
    (_hd1 : 0 ≤ d1) (hd2 : 0 ≤ d2) :
    (∃ w1 w2 fuel, ∀ fuel1, fuel ≤ fuel1 →
        mp_dynamics_world_step fuel1 (some w) d1 = some (some w1) ∧
        mp_dynamics_world_step fuel1 (some w1) d2 = some (some w2) ∧
        mp_dynamics_world_step fuel1 (some w) (d1 + d2) = some (some w2)) ∧
      (∃ w3 fuel, ∀ fuel1, fuel ≤ fuel1 →
        mp_dynamics_world_step_seq fuel1 (some w) [w.timestep, w.timestep, w.timestep / 2] =
          some (some w3) ∧
        mp_dynamics_world_step fuel1 (some w) (5 / 2 * w.timestep) = some (some w3)) := by
  constructor
  · have hT1 : 0 < (stepResult w d1).timestep := by
      rw [stepResult_timestep]
      exact hT
    refine ⟨stepResult w d1, stepResult w (d1 + d2),
      max (⌊(w.dt + d1) / w.timestep⌋₊ + 1)
        (max (⌊((stepResult w d1).dt + d2) / (stepResult w d1).timestep⌋₊ + 1)
          (⌊(w.dt + (d1 + d2)) / w.timestep⌋₊ + 1)), fun fuel1 hf => ?_⟩
    have hA := le_max_left (⌊(w.dt + d1) / w.timestep⌋₊ + 1)
        (max (⌊((stepResult w d1).dt + d2) / (stepResult w d1).timestep⌋₊ + 1)
          (⌊(w.dt + (d1 + d2)) / w.timestep⌋₊ + 1))
    have hB := le_max_right (⌊(w.dt + d1) / w.timestep⌋₊ + 1)
        (max (⌊((stepResult w d1).dt + d2) / (stepResult w d1).timestep⌋₊ + 1)
          (⌊(w.dt + (d1 + d2)) / w.timestep⌋₊ + 1))
    have hC := le_max_left (⌊((stepResult w d1).dt + d2) / (stepResult w d1).timestep⌋₊ + 1)
        (⌊(w.dt + (d1 + d2)) / w.timestep⌋₊ + 1)
    have hD := le_max_right (⌊((stepResult w d1).dt + d2) / (stepResult w d1).timestep⌋₊ + 1)
        (⌊(w.dt + (d1 + d2)) / w.timestep⌋₊ + 1)
    refine ⟨step_floor w d1 hT fuel1 (by omega), ?_, step_floor w (d1 + d2) hT fuel1 (by omega)⟩
    rw [step_floor (stepResult w d1) d2 hT1 fuel1 (by omega), stepResult_compose w d1 d2 hT hd2]
  · obtain ⟨f1, h1⟩ := step_seq_floor [w.timestep, w.timestep, w.timestep / 2] w hT
    have hT1 : 0 < (stepResult w w.timestep).timestep := by
      rw [stepResult_timestep]
      exact hT
    have e : List.foldl stepResult w [w.timestep, w.timestep, w.timestep / 2] =
        stepResult w (5 / 2 * w.timestep) := by
      show stepResult (stepResult (stepResult w w.timestep) w.timestep) (w.timestep / 2) = _
      rw [stepResult_compose w w.timestep w.timestep hT hT.le,
        stepResult_compose w (w.timestep + w.timestep) (w.timestep / 2) hT (by linarith)]
      congr 1
      ring
    refine ⟨stepResult w (5 / 2 * w.timestep),
      max f1 (⌊(w.dt + 5 / 2 * w.timestep) / w.timestep⌋₊ + 1), fun fuel1 hf => ?_⟩
    have hA := le_max_left f1 (⌊(w.dt + 5 / 2 * w.timestep) / w.timestep⌋₊ + 1)
    have hB := le_max_right f1 (⌊(w.dt + 5 / 2 * w.timestep) / w.timestep⌋₊ + 1)
    refine ⟨?_, step_floor w _ hT fuel1 (by omega)⟩
    rw [h1 fuel1 (by omega), e]

/-- C2 at a concrete input: the gravity test world with delta times 3/2 and
7/4. -/
theorem C2_accumulator_ignores_call_boundaries_witness :
    (0 : ℚ) < gravityWorld.timestep ∧ 0 ≤ gravityWorld.dt ∧
      gravityWorld.dt < gravityWorld.timestep ∧
      (∃ w1 w2 fuel, ∀ fuel1, fuel ≤ fuel1 →
        mp_dynamics_world_step fuel1 (some gravityWorld) (3 / 2) = some (some w1) ∧
        mp_dynamics_world_step fuel1 (some w1) (7 / 4) = some (some w2) ∧
        mp_dynamics_world_step fuel1 (some gravityWorld) (3 / 2 + 7 / 4) = some (some w2)) := by
  have hT : (0 : ℚ) < gravityWorld.timestep := by norm_num [gravityWorld, unitWorld]
  have h0 : (0 : ℚ) ≤ gravityWorld.dt := by
    norm_num [gravityWorld, unitWorld, mp_dynamics_world_zero]
  have h1 : gravityWorld.dt < gravityWorld.timestep := by
    norm_num [gravityWorld, unitWorld, mp_dynamics_world_zero]
  exact ⟨hT, h0, h1,
    (C2_accumulator_ignores_call_boundaries gravityWorld (3 / 2) (7 / 4) hT h0 h1
      (by norm_num) (by norm_num)).1⟩

/-- C3: one fixed sub-step maps a non-kinematic body with `mass > 0` among
the first `bodyCount` slots from position `p` and linear velocity `v` to
linear velocity `v + gravity * timestep` and position
`p + (v + gravity * timestep)`, the updated velocity being what is added to
the position; nothing else of the body changes. -/
theorem C3_step_fixed_integrates_dynamic_body (w : mp_dynamics_world K) (i : Nat)
    (b : mp_dynamics_body K) (hi : i < w.bodyCount) (hb : w.bodies[i]? = some b)
    (hk : b.isKinematic = 0) (hm : 0 < b.mass) :
    (mp_dynamics_world_step_fixed w).bodies[i]? =
      some { b with
        linVelocity :=
          { x := b.linVelocity.x + w.gravity.x * w.timestep
            y := b.linVelocity.y + w.gravity.y * w.timestep
            z := b.linVelocity.z + w.gravity.z * w.timestep }
        position :=
          { x := b.position.x + (b.linVelocity.x + w.gravity.x * w.timestep)
            y := b.position.y + (b.linVelocity.y + w.gravity.y * w.timestep)
            z := b.position.z + (b.linVelocity.z + w.gravity.z * w.timestep) } } := by
  rw [step_fixed_bodies_getElem?, if_pos hi, hb, Option.map_some']
  have hk1 : ¬ b.isKinematic ≠ 0 := fun h => h hk
  unfold mp_dynamics_world_step_fixed_body
  rw [if_neg hk1, if_pos hm]
  rfl

/-- C3 at the gravity test case: gravity (0, -10, 0), timestep 1, a body of
mass 1 at rest at the origin; after one fixed sub-step its velocity is
(0, -10, 0) and its position is (0, -10, 0). -/
theorem C3_step_fixed_integrates_dynamic_body_witness :
    0 < gravityWorld.bodyCount ∧ gravityWorld.bodies[0]? = some dynamicBody ∧
      dynamicBody.isKinematic = 0 ∧ 0 < dynamicBody.mass ∧
      (mp_dynamics_world_step_fixed gravityWorld).bodies[0]? =
        some { dynamicBody with
          linVelocity := { x := 0, y := -10, z := 0 }
          position := { x := 0, y := -10, z := 0 } } := by
  have h1 : 0 < gravityWorld.bodyCount := by decide
  have h2 : gravityWorld.bodies[0]? = some dynamicBody := by
    simp only [gravityWorld, List.getElem?_cons_zero]
  have h3 : dynamicBody.isKinematic = 0 := rfl
  have h4 : 0 < dynamicBody.mass := by norm_num [dynamicBody]
  have key := C3_step_fixed_integrates_dynamic_body gravityWorld 0 dynamicBody h1 h2 h3 h4
  refine ⟨h1, h2, h3, h4, ?_⟩
  rw [key]
  norm_num [gravityWorld, unitWorld, dynamicBody, mp_dynamics_body_zero, mp_float32x3_zero]

/-- C4: a body with mass 0 is never displaced.  Whatever the gravity, for
every finite sequence of `mp_dynamics_world_step` calls with any delta
times, every slot holding a body of mass 0 holds the identical body
(position and linear velocity included) after the calls; and the calls do
all return when the timestep is positive. -/
theorem C4_static_body_never_displaced [FloorRing K] (w : mp_dynamics_world K) (ds : List K)
    (j : Nat) (b : mp_dynamics_body K) (hb : w.bodies[j]? = some b) (hm : b.mass = 0) :
    (∀ fuel w1, mp_dynamics_world_step_seq fuel (some w) ds = some (some w1) →
        w1.bodies[j]? = some b) ∧
      (0 < w.timestep →
        ∃ fuel w1, mp_dynamics_world_step_seq fuel (some w) ds = some (some w1)) := by
  constructor
  · intro fuel w1 h
    exact step_seq_inert fuel ds w w1 h j b hb (Or.inr (by rw [hm]; exact lt_irrefl 0))
  · intro hT
    obtain ⟨fuel, h⟩ := step_seq_floor ds w hT
    exact ⟨fuel, _, h fuel le_rfl⟩

/-- C4 at a concrete input: the static body in slot 1 of the mixed world,
under the delta times 1, 5/2, 1/3. -/
theorem C4_static_body_never_displaced_witness :
    mixedWorld.bodies[1]? = some staticBody ∧ staticBody.mass = 0 ∧
      ∃ fuel w1, mp_dynamics_world_step_seq fuel (some mixedWorld) [1, 5 / 2, 1 / 3] =
          some (some w1) ∧ w1.bodies[1]? = some staticBody := by
  have h1 : mixedWorld.bodies[1]? = some staticBody := by
    simp only [mixedWorld, List.getElem?_cons_succ, List.getElem?_cons_zero]
  have h2 : staticBody.mass = 0 := rfl
  have hT : 0 < mixedWorld.timestep := by norm_num [mixedWorld, unitWorld]
  have key := C4_static_body_never_displaced mixedWorld [1, 5 / 2, 1 / 3] 1 staticBody h1 h2
  obtain ⟨fuel, w1, hw⟩ := key.2 hT
  exact ⟨h1, h2, fuel, w1, hw, key.1 fuel w1 hw⟩

/-- C5: a kinematic body is exempt from integration.  For every world,
every delta time and every slot holding a body with `isKinematic` non-zero,
whatever its mass, a returning call of `mp_dynamics_world_step` leaves the
identical body in the slot (`linVelocity`, `angVelocity` and `position`
included); and the call does return when the timestep is positive. -/
theorem C5_kinematic_body_exempt [FloorRing K] (w : mp_dynamics_world K) (d : K)
    (j : Nat) (b : mp_dynamics_body K) (hb : w.bodies[j]? = some b) (hk : b.isKinematic ≠ 0) :
    (∀ fuel w1, mp_dynamics_world_step fuel (some w) d = some (some w1) →
        w1.bodies[j]? = some b ∧
        (w1.bodies[j]?.map mp_dynamics_body.linVelocity = some b.linVelocity ∧
         w1.bodies[j]?.map mp_dynamics_body.angVelocity = some b.angVelocity ∧
         w1.bodies[j]?.map mp_dynamics_body.position = some b.position)) ∧
      (0 < w.timestep → ∃ fuel w1, mp_dynamics_world_step fuel (some w) d = some (some w1)) := by
  constructor
  · intro fuel w1 h
    have e := step_inert fuel w w1 d h j b hb (Or.inl hk)
    rw [e]
    exact ⟨rfl, rfl, rfl, rfl⟩
  · intro hT
    exact ⟨⌊(w.dt + d) / w.timestep⌋₊ + 1, stepResult w d,
      step_floor w d hT _ (Nat.lt_succ_self _)⟩

/-- C5 at a concrete input: the kinematic body of mass 2 in slot 2 of the
mixed world, under delta time 7/2. -/
theorem C5_kinematic_body_exempt_witness :
    mixedWorld.bodies[2]? = some kinematicBody ∧ kinematicBody.isKinematic ≠ 0 ∧
      ∃ fuel w1, mp_dynamics_world_step fuel (some mixedWorld) (7 / 2) = some (some w1) ∧
        w1.bodies[2]? = some kinematicBody := by
  have h1 : mixedWorld.bodies[2]? = some kinematicBody := by
    simp only [mixedWorld, List.getElem?_cons_succ, List.getElem?_cons_zero]
  have h2 : kinematicBody.isKinematic ≠ 0 := by decide
  have hT : 0 < mixedWorld.timestep := by norm_num [mixedWorld, unitWorld]
  have key := C5_kinematic_body_exempt mixedWorld (7 / 2) 2 kinematicBody h1 h2
  obtain ⟨fuel, w1, hw⟩ := key.2 hT
  exact ⟨h1, h2, fuel, w1, hw, (key.1 fuel w1 hw).1⟩

/-- C6: for a world with timestep `T > 0` and accumulator `a`, and a delta
time `d` with `a + d ≥ 0`, `mp_dynamics_world_step` performs exactly
`n = ⌊(a + d) / T⌋` fixed sub-steps (each `mp_dynamics_world_step_fixed`, of
size `T`) and leaves the accumulator at `(a + d) - n * T`. -/
theorem C6_step_performs_floor_substeps [FloorRing K] (w : mp_dynamics_world K) (d : K)
    (hT : 0 < w.timestep) (h : 0 ≤ w.dt + d) :
    ((⌊(w.dt + d) / w.timestep⌋₊ : ℤ) = ⌊(w.dt + d) / w.timestep⌋) ∧
      ∃ fuel, ∀ fuel1, fuel ≤ fuel1 →
        mp_dynamics_world_step_count fuel1 (some w) d =
          some (⌊(w.dt + d) / w.timestep⌋₊,
            some { mp_dynamics_world_step_fixed^[⌊(w.dt + d) / w.timestep⌋₊] w with
                   dt := (w.dt + d) - (⌊(w.dt + d) / w.timestep⌋₊ : K) * w.timestep }) := by
  constructor
  · exact Int.natCast_floor_eq_floor (div_nonneg h hT.le)
  · refine ⟨⌊(w.dt + d) / w.timestep⌋₊ + 1, fun fuel1 hf => ?_⟩
    rw [step_count_floor w d hT fuel1 (by omega)]
    rfl

/-- C6 at a concrete input: the gravity test world with delta time 5/2
performs 2 sub-steps and leaves the accumulator at 1/2. -/
theorem C6_step_performs_floor_substeps_witness :
    (0 : ℚ) < gravityWorld.timestep ∧ 0 ≤ gravityWorld.dt + 5 / 2 ∧
      ⌊(gravityWorld.dt + 5 / 2) / gravityWorld.timestep⌋₊ = 2 ∧
      ∃ fuel, ∀ fuel1, fuel ≤ fuel1 →
        mp_dynamics_world_step_count fuel1 (some gravityWorld) (5 / 2) =
          some (2, some { mp_dynamics_world_step_fixed^[2] gravityWorld with dt := 1 / 2 }) := by
  have hT : (0 : ℚ) < gravityWorld.timestep := by norm_num [gravityWorld, unitWorld]
  have h0 : (0 : ℚ) ≤ gravityWorld.dt + 5 / 2 := by
    norm_num [gravityWorld, unitWorld, mp_dynamics_world_zero]
  have hq : (gravityWorld.dt + 5 / 2) / gravityWorld.timestep = 5 / 2 := by
    norm_num [gravityWorld, unitWorld, mp_dynamics_world_zero]
  have hn : ⌊(gravityWorld.dt + 5 / 2) / gravityWorld.timestep⌋₊ = 2 := by
    rw [hq, Nat.floor_eq_iff (by norm_num)]
    norm_num
  have hacc : gravityWorld.dt + 5 / 2 - ((2 : Nat) : ℚ) * gravityWorld.timestep = 1 / 2 := by
    norm_num [gravityWorld, unitWorld, mp_dynamics_world_zero]
  have key := (C6_step_performs_floor_substeps gravityWorld (5 / 2) hT h0).2
  rw [hn, hacc] at key
  exact ⟨hT, h0, hn, key⟩

/-- C7, as stated, fails: on the world `mp_dynamics_world_init` leaves for
timestep 0, the loop of `mp_dynamics_world_step` with delta time 0 never
exits, whatever the fuel. -/
theorem C7_counterexample_zero_timestep :
    ∃ w0 : mp_dynamics_world ℚ,
      (mp_dynamics_world_init zeroTimestepConfig (some mp_dynamics_world_zero)).2 = some w0 ∧
      ¬ ∃ fuel r, mp_dynamics_world_step_count fuel (some w0) 0 = some r := by
  refine ⟨zeroTimestepWorld, ?_, ?_⟩
  · rw [init_zeroTimestepWorld]
  · rintro ⟨fuel, r, h⟩
    rw [step_count_some, step_loop_diverges fuel _
      (by norm_num [zeroTimestepWorld])
      (by norm_num [zeroTimestepWorld, mp_dynamics_world_zero])] at h
    exact Option.noConfusion h

/-- C7 (amended): `mp_dynamics_world_step` on a world with accumulator `a`,
timestep `T` and delta time `d` does not always run to completion.  When
`T ≤ 0` and `T ≤ a + d` its loop never exits; when `a + d < T` it returns at
once, without a sub-step.  For `T > 0`, in exact arithmetic (each
`dt - timestep` the exact difference), the loop exits after `⌊(a + d) / T⌋₊`
fixed sub-steps, a number determined by `a`, `d` and `T`; with the rounding
of `float` a positive timestep does not ensure this. -/
theorem C7_step_termination_in_exact_arithmetic [FloorRing K] (w : mp_dynamics_world K)
    (d : K) :
    (w.timestep ≤ 0 → w.timestep ≤ w.dt + d →
        ¬ ∃ fuel r, mp_dynamics_world_step_count fuel (some w) d = some r) ∧
      (w.dt + d < w.timestep → ∀ fuel,
        mp_dynamics_world_step_count (fuel + 1) (some w) d =
          some (0, some { w with dt := w.dt + d })) ∧
      (0 < w.timestep → ∃ fuel, ∀ fuel1, fuel ≤ fuel1 → ∃ w1,
        mp_dynamics_world_step_count fuel1 (some w) d =
          some (⌊(w.dt + d) / w.timestep⌋₊, some w1)) := by
  refine ⟨?_, ?_, ?_⟩
  · rintro hT hle ⟨fuel, r, h⟩
    rw [step_count_some, step_loop_diverges fuel { w with dt := w.dt + d } hT hle] at h
    exact Option.noConfusion h
  · intro hlt fuel
    rw [step_count_some, step_loop_exit fuel _ hlt]
    rfl
  · intro hT
    exact ⟨⌊(w.dt + d) / w.timestep⌋₊ + 1, fun fuel1 hf =>
      ⟨stepResult w d, step_count_floor w d hT fuel1 (by omega)⟩⟩

/-- C7 (amended) at concrete inputs: with timestep 1 the call with delta
time 5/2 performs 2 sub-steps, and the call with delta time 1/2 returns at
once. -/
theorem C7_step_termination_in_exact_arithmetic_witness :
    (0 : ℚ) < gravityWorld.timestep ∧
      (∃ fuel, ∀ fuel1, fuel ≤ fuel1 → ∃ w1,
        mp_dynamics_world_step_count fuel1 (some gravityWorld) (5 / 2) = some (2, some w1)) ∧
      mp_dynamics_world_step_count 1 (some gravityWorld) (1 / 2) =
        some (0, some { gravityWorld with dt := gravityWorld.dt + 1 / 2 }) := by
  have hT : (0 : ℚ) < gravityWorld.timestep := by norm_num [gravityWorld, unitWorld]
  have hq : (gravityWorld.dt + 5 / 2) / gravityWorld.timestep = 5 / 2 := by
    norm_num [gravityWorld, unitWorld, mp_dynamics_world_zero]
  have hn : ⌊(gravityWorld.dt + 5 / 2) / gravityWorld.timestep⌋₊ = 2 := by
    rw [hq, Nat.floor_eq_iff (by norm_num)]
    norm_num
  have hlt : gravityWorld.dt + 1 / 2 < gravityWorld.timestep := by
    norm_num [gravityWorld, unitWorld, mp_dynamics_world_zero]
  have key5 := (C7_step_termination_in_exact_arithmetic gravityWorld (5 / 2)).2.2 hT
  rw [hn] at key5
  exact ⟨hT, key5, (C7_step_termination_in_exact_arithmetic gravityWorld (1 / 2)).2.1 hlt 0⟩

end StepperClaims

/-! ## Geometric queries: claims C8 to C10 -/

section GeometryClaims

variable {K : Type} [LinearOrderedField K]

theorem ray_line_true_iff (rayO rayD : mp_float32x2 K) (lineA lineB lineC : K)
    (p : Option (mp_float32x2 K)) :
    (mp_ray_line_intersection_float32x2 rayO rayD lineA lineB lineC p).1 = true ↔
      (lineA * rayD.x + lineB * rayD.y ≠ 0 ∧
        0 ≤ -(lineC + lineA * rayO.x + lineB * rayO.y) / (lineA * rayD.x + lineB * rayD.y)) := by
  unfold mp_ray_line_intersection_float32x2
  by_cases h0 : lineA * rayD.x + lineB * rayD.y ≠ 0
  · by_cases ht :
        -(lineC + lineA * rayO.x + lineB * rayO.y) / (lineA * rayD.x + lineB * rayD.y) < 0
    · simp only [if_pos h0, if_pos ht]
      constructor
      · intro h; exact absurd h (by decide)
      · intro h; exact absurd h.2 (not_le.2 ht)
    · simp only [if_pos h0, if_neg ht]
      cases p with
      | none => exact ⟨fun _ => ⟨h0, not_lt.1 ht⟩, fun _ => rfl⟩
      | some P0 => exact ⟨fun _ => ⟨h0, not_lt.1 ht⟩, fun _ => rfl⟩
  · simp only [if_neg h0]
    constructor
    · intro h; exact absurd h (by decide)
    · intro h; exact absurd h.1 h0

theorem ray_line_true_point (rayO rayD : mp_float32x2 K) (lineA lineB lineC : K)
    (P0 : mp_float32x2 K)
    (h : (mp_ray_line_intersection_float32x2 rayO rayD lineA lineB lineC (some P0)).1 = true) :
    mp_ray_line_intersection_float32x2 rayO rayD lineA lineB lineC (some P0) =
      (true, some (mp_float32x2_add rayO (mp_float32x2_mul1 rayD
        (-(lineC + lineA * rayO.x + lineB * rayO.y) / (lineA * rayD.x + lineB * rayD.y))))) := by
  obtain ⟨h0, ht⟩ := (ray_line_true_iff rayO rayD lineA lineB lineC (some P0)).1 h
  unfold mp_ray_line_intersection_float32x2
  simp only [if_pos h0, if_neg (not_lt.2 ht)]

/-- C8: `mp_ray_line_intersection_float32x2` returns false exactly when
`A * D.x + B * D.y = 0` (the ray is parallel to the line) or
`t = -(C + A * O.x + B * O.y) / (A * D.x + B * D.y)` is negative; for
`O = (0, 0)`, `D = (-1, 0)` and the line `(1, 0, -5)` it returns false. -/
theorem C8_ray_line_false_iff (rayO rayD : mp_float32x2 K) (lineA lineB lineC : K)
    (p : Option (mp_float32x2 K)) :
    ((mp_ray_line_intersection_float32x2 rayO rayD lineA lineB lineC p).1 = false ↔
      (lineA * rayD.x + lineB * rayD.y = 0 ∨
        -(lineC + lineA * rayO.x + lineB * rayO.y) / (lineA * rayD.x + lineB * rayD.y) < 0)) ∧
    (mp_ray_line_intersection_float32x2 (K := K) { x := 0, y := 0 } { x := -1, y := 0 }
        1 0 (-5) p).1 = false := by
  have key : ∀ (O D : mp_float32x2 K) (A B C : K),
      ((mp_ray_line_intersection_float32x2 O D A B C p).1 = false ↔
        (A * D.x + B * D.y = 0 ∨ -(C + A * O.x + B * O.y) / (A * D.x + B * D.y) < 0)) := by
    intro O D A B C
    rw [← Bool.not_eq_true, ray_line_true_iff]
    constructor
    · intro h
      by_cases h0 : A * D.x + B * D.y = 0
      · exact Or.inl h0
      · exact Or.inr (not_le.1 fun ht => h ⟨h0, ht⟩)
    · rintro (h0 | ht) ⟨h1, h2⟩
      · exact h1 h0
      · exact absurd h2 (not_le.2 ht)
  refine ⟨key rayO rayD lineA lineB lineC, ?_⟩
  rw [key]
  right
  norm_num

/-- C9: whenever `mp_ray_line_intersection_float32x2` returns true with a
non-null output, the point `P` it writes is `O + t * D` for
`t = -(C + A * O.x + B * O.y) / (A * D.x + B * D.y)`, with `t ≥ 0`, and `P`
lies on the line: `A * P.x + B * P.y + C = 0`. -/
theorem C9_ray_line_point_on_line (rayO rayD : mp_float32x2 K) (lineA lineB lineC : K)
    (P0 : mp_float32x2 K)
    (h : (mp_ray_line_intersection_float32x2 rayO rayD lineA lineB lineC (some P0)).1 = true) :
    ∃ P : mp_float32x2 K,
      (mp_ray_line_intersection_float32x2 rayO rayD lineA lineB lineC (some P0)).2 = some P ∧
      0 ≤ -(lineC + lineA * rayO.x + lineB * rayO.y) / (lineA * rayD.x + lineB * rayD.y) ∧
      P.x = rayO.x +
        -(lineC + lineA * rayO.x + lineB * rayO.y) / (lineA * rayD.x + lineB * rayD.y) * rayD.x ∧
      P.y = rayO.y +
        -(lineC + lineA * rayO.x + lineB * rayO.y) / (lineA * rayD.x + lineB * rayD.y) * rayD.y ∧
      lineA * P.x + lineB * P.y + lineC = 0 := by
  obtain ⟨h0, ht⟩ := (ray_line_true_iff rayO rayD lineA lineB lineC (some P0)).1 h
  rw [ray_line_true_point rayO rayD lineA lineB lineC P0 h]
  refine ⟨_, rfl, ht, ?_, ?_, ?_⟩
  · show rayO.x + rayD.x * _ = _
    ring
  · show rayO.y + rayD.y * _ = _
    ring
  · show lineA * (rayO.x + rayD.x * _) + lineB * (rayO.y + rayD.y * _) + lineC = 0
    field_simp
    ring

/-- C9 at the test case of the spec: `O = (0, 0)`, `D = (1, 0)` and the
line `(1, 0, -5)`: the call returns true and writes `P = (5, 0)`, with
`t = 5`. -/
theorem C9_ray_line_point_on_line_witness :
    (mp_ray_line_intersection_float32x2 (K := ℚ) { x := 0, y := 0 } { x := 1, y := 0 }
        1 0 (-5) (some { x := 7, y := 7 })).1 = true ∧
    (mp_ray_line_intersection_float32x2 (K := ℚ) { x := 0, y := 0 } { x := 1, y := 0 }
        1 0 (-5) (some { x := 7, y := 7 })).2 = some { x := 5, y := 0 } ∧
    -(-5 + 1 * 0 + 0 * 0) / (1 * 1 + 0 * 0) = (5 : ℚ) ∧
    (1 : ℚ) * 5 + 0 * 0 + -5 = 0 := by
  have h : (mp_ray_line_intersection_float32x2 (K := ℚ) { x := 0, y := 0 } { x := 1, y := 0 }
      1 0 (-5) (some { x := 7, y := 7 })).1 = true := by
    rw [ray_line_true_iff]
    norm_num
  obtain ⟨P, hP, _, hx, hy, _⟩ :=
    C9_ray_line_point_on_line (K := ℚ) { x := 0, y := 0 } { x := 1, y := 0 } 1 0 (-5)
      { x := 7, y := 7 } h
  refine ⟨h, ?_, by norm_num, by norm_num⟩
  rw [hP]
  have hx5 : P.x = 5 := by rw [hx]; norm_num
  have hy0 : P.y = 0 := by rw [hy]; norm_num
  cases P
  simp only at hx5 hy0
  rw [hx5, hy0]

theorem seg_unfold (li rayO rayD p0 p1 : mp_float32x2 K) (out : Option (mp_float32x2 K)) :
    mp_ray_line_segment_intersection_float32x2 li rayO rayD p0 p1 out =
      if p1.x - p0.x = 0 ∧ p1.y - p0.y = 0 then (false, out)
      else
        match mp_ray_line_intersection_float32x2 rayO rayD (-(p1.y - p0.y)) (p1.x - p0.x)
            ((p1.y - p0.y) * p0.x - (p1.x - p0.x) * p0.y) (some li) with
        | (true, some L) =>
          if segParam p0 p1 L < 0 ∨ segParam p0 p1 L > 1 then (false, out)
          else
            match out with
            | some _ =>
              (true, some (mp_float32x2_add p0
                (mp_float32x2_mul1 (mp_float32x2_sub p1 p0) (segParam p0 p1 L))))
            | none => (true, none)
        | _ => (false, out) := rfl

theorem seg_true_iff (li rayO rayD p0 p1 : mp_float32x2 K) (out : Option (mp_float32x2 K)) :
    (mp_ray_line_segment_intersection_float32x2 li rayO rayD p0 p1 out).1 = true ↔
      (¬ (p1.x - p0.x = 0 ∧ p1.y - p0.y = 0) ∧
        (mp_ray_line_intersection_float32x2 rayO rayD (-(p1.y - p0.y)) (p1.x - p0.x)
            ((p1.y - p0.y) * p0.x - (p1.x - p0.x) * p0.y) (some li)).1 = true ∧
        0 ≤ segParam p0 p1 (mp_float32x2_add rayO (mp_float32x2_mul1 rayD
          (-((p1.y - p0.y) * p0.x - (p1.x - p0.x) * p0.y + -(p1.y - p0.y) * rayO.x +
              (p1.x - p0.x) * rayO.y) /
            (-(p1.y - p0.y) * rayD.x + (p1.x - p0.x) * rayD.y)))) ∧
        segParam p0 p1 (mp_float32x2_add rayO (mp_float32x2_mul1 rayD
          (-((p1.y - p0.y) * p0.x - (p1.x - p0.x) * p0.y + -(p1.y - p0.y) * rayO.x +
              (p1.x - p0.x) * rayO.y) /
            (-(p1.y - p0.y) * rayD.x + (p1.x - p0.x) * rayD.y)))) ≤ 1) := by
  rw [seg_unfold]
  by_cases hd : p1.x - p0.x = 0 ∧ p1.y - p0.y = 0
  · rw [if_pos hd]
    exact ⟨fun h => absurd h Bool.false_ne_true, fun h => absurd hd h.1⟩
  · rw [if_neg hd]
    by_cases hin : (mp_ray_line_intersection_float32x2 rayO rayD (-(p1.y - p0.y)) (p1.x - p0.x)
            ((p1.y - p0.y) * p0.x - (p1.x - p0.x) * p0.y) (some li)).1 = true
    · rw [ray_line_true_point _ _ _ _ _ _ hin]
      simp only
      by_cases hu : segParam p0 p1 (mp_float32x2_add rayO (mp_float32x2_mul1 rayD
          (-((p1.y - p0.y) * p0.x - (p1.x - p0.x) * p0.y + -(p1.y - p0.y) * rayO.x +
              (p1.x - p0.x) * rayO.y) /
            (-(p1.y - p0.y) * rayD.x + (p1.x - p0.x) * rayD.y)))) < 0 ∨
          segParam p0 p1 (mp_float32x2_add rayO (mp_float32x2_mul1 rayD
          (-((p1.y - p0.y) * p0.x - (p1.x - p0.x) * p0.y + -(p1.y - p0.y) * rayO.x +
              (p1.x - p0.x) * rayO.y) /
            (-(p1.y - p0.y) * rayD.x + (p1.x - p0.x) * rayD.y)))) > 1
      · rw [if_pos hu]
        constructor
        · intro h; exact absurd h Bool.false_ne_true
        · rintro ⟨_, _, h1, h2⟩
          rcases hu with hu | hu
          · exact absurd h1 (not_le.2 hu)
          · exact absurd h2 (not_le.2 hu)
      · rw [if_neg hu]
        push_neg at hu
        cases out with
        | none => exact ⟨fun _ => ⟨hd, trivial, hu.1, hu.2⟩, fun _ => rfl⟩
        | some P0 => exact ⟨fun _ => ⟨hd, trivial, hu.1, hu.2⟩, fun _ => rfl⟩
    · have hin2 : ∃ q, mp_ray_line_intersection_float32x2 rayO rayD (-(p1.y - p0.y)) (p1.x - p0.x)
            ((p1.y - p0.y) * p0.x - (p1.x - p0.x) * p0.y) (some li) = (false, q) := by
        refine ⟨(mp_ray_line_intersection_float32x2 rayO rayD (-(p1.y - p0.y)) (p1.x - p0.x)
            ((p1.y - p0.y) * p0.x - (p1.x - p0.x) * p0.y) (some li)).2, ?_⟩
        rw [Bool.not_eq_true] at hin
        rw [← hin]
      obtain ⟨q, hq⟩ := hin2
      rw [hq]
      simp only
      rw [hq] at hin
      exact ⟨fun h => absurd h Bool.false_ne_true, fun h => absurd h.2.1 hin⟩

theorem seg_line_param (ox oy dx' dy' p0x p0y p1x p1y s u : K)
    (hden : -(p1y - p0y) * dx' + (p1x - p0x) * dy' ≠ 0)
    (ex : ox + s * dx' = p0x + u * (p1x - p0x))
    (ey : oy + s * dy' = p0y + u * (p1y - p0y)) :
    -((p1y - p0y) * p0x - (p1x - p0x) * p0y + -(p1y - p0y) * ox + (p1x - p0x) * oy) /
        (-(p1y - p0y) * dx' + (p1x - p0x) * dy') = s := by
  rw [div_eq_iff hden]
  linear_combination (p1y - p0y) * ex - (p1x - p0x) * ey

theorem segParam_of_point (p0 p1 L : mp_float32x2 K) (u : K)
    (hd : ¬ (p1.x - p0.x = 0 ∧ p1.y - p0.y = 0))
    (hx : L.x = p0.x + u * (p1.x - p0.x)) (hy : L.y = p0.y + u * (p1.y - p0.y)) :
    segParam p0 p1 L = u := by
  unfold segParam
  by_cases h : p0.x ≠ p1.x
  · rw [if_pos h, hx]
    have h1 : p1.x - p0.x ≠ 0 := sub_ne_zero.2 (Ne.symm h)
    field_simp
  · rw [if_neg h, hy]
    have h0 : p1.x - p0.x = 0 := by
      have : p0.x = p1.x := not_not.1 h
      rw [this, sub_self]
    have h1 : p1.y - p0.y ≠ 0 := fun h2 => hd ⟨h0, h2⟩
    field_simp

theorem point_of_segParam (p0 p1 L : mp_float32x2 K)
    (hd : ¬ (p1.x - p0.x = 0 ∧ p1.y - p0.y = 0))
    (hline : -(p1.y - p0.y) * (L.x - p0.x) + (p1.x - p0.x) * (L.y - p0.y) = 0) :
    L.x = p0.x + segParam p0 p1 L * (p1.x - p0.x) ∧
      L.y = p0.y + segParam p0 p1 L * (p1.y - p0.y) := by
  unfold segParam
  by_cases h : p0.x ≠ p1.x
  · rw [if_pos h]
    have h1 : p1.x - p0.x ≠ 0 := sub_ne_zero.2 (Ne.symm h)
    constructor
    · field_simp
    · field_simp
      linear_combination hline
  · rw [if_neg h]
    have h0 : p1.x - p0.x = 0 := by
      have : p0.x = p1.x := not_not.1 h
      rw [this, sub_self]
    have h1 : p1.y - p0.y ≠ 0 := fun h2 => hd ⟨h0, h2⟩
    rw [h0] at hline ⊢
    have hLx : L.x - p0.x = 0 := by
      have h3 : (p1.y - p0.y) * (L.x - p0.x) = 0 := by linear_combination -hline
      rcases mul_eq_zero.1 h3 with h4 | h4
      · exact absurd h4 h1
      · exact h4
    constructor
    · linear_combination hLx
    · field_simp

theorem ray_point_on_line (A B C ox oy dx dy : K) (hden : A * dx + B * dy ≠ 0) :
    A * (ox + dx * (-(C + A * ox + B * oy) / (A * dx + B * dy))) +
      B * (oy + dy * (-(C + A * ox + B * oy) / (A * dx + B * dy))) + C = 0 := by
  field_simp
  ring

theorem x2_add_mul1_x (a d : mp_float32x2 K) (t : K) :
    (mp_float32x2_add a (mp_float32x2_mul1 d t)).x = a.x + d.x * t := rfl

theorem x2_add_mul1_y (a d : mp_float32x2 K) (t : K) :
    (mp_float32x2_add a (mp_float32x2_mul1 d t)).y = a.y + d.y * t := rfl

theorem seg_true_iff_meets (li rayO rayD p0 p1 : mp_float32x2 K)
    (out : Option (mp_float32x2 K)) :
    (mp_ray_line_segment_intersection_float32x2 li rayO rayD p0 p1 out).1 = true ↔
      (-(p1.y - p0.y) * rayD.x + (p1.x - p0.x) * rayD.y ≠ 0 ∧
        RayMeetsSegment rayO rayD p0 p1) := by
  rw [seg_true_iff, ray_line_true_iff]
  constructor
  · rintro ⟨hd, ⟨hden, ht⟩, hu0, hu1⟩
    have hline : -(p1.y - p0.y) * ((mp_float32x2_add rayO (mp_float32x2_mul1 rayD
          (-((p1.y - p0.y) * p0.x - (p1.x - p0.x) * p0.y + -(p1.y - p0.y) * rayO.x +
              (p1.x - p0.x) * rayO.y) /
            (-(p1.y - p0.y) * rayD.x + (p1.x - p0.x) * rayD.y)))).x - p0.x) +
        (p1.x - p0.x) * ((mp_float32x2_add rayO (mp_float32x2_mul1 rayD
          (-((p1.y - p0.y) * p0.x - (p1.x - p0.x) * p0.y + -(p1.y - p0.y) * rayO.x +
              (p1.x - p0.x) * rayO.y) /
            (-(p1.y - p0.y) * rayD.x + (p1.x - p0.x) * rayD.y)))).y - p0.y) = 0 := by
      rw [x2_add_mul1_x, x2_add_mul1_y]
      linear_combination ray_point_on_line (-(p1.y - p0.y)) (p1.x - p0.x)
        ((p1.y - p0.y) * p0.x - (p1.x - p0.x) * p0.y) rayO.x rayO.y rayD.x rayD.y hden
    obtain ⟨hx, hy⟩ := point_of_segParam p0 p1 _ hd hline
    rw [x2_add_mul1_x] at hx
    rw [x2_add_mul1_y] at hy
    refine ⟨hden, _, _, ht, hu0, hu1, ?_, ?_⟩
    · rw [mul_comm, hx]
    · rw [mul_comm, hy]
  · rintro ⟨hden, s, u, hs, hu0, hu1, ex, ey⟩
    have hd : ¬ (p1.x - p0.x = 0 ∧ p1.y - p0.y = 0) := by
      rintro ⟨h0, h1⟩
      apply hden
      rw [h0, h1]
      ring
    have ht := seg_line_param rayO.x rayO.y rayD.x rayD.y p0.x p0.y p1.x p1.y s u hden ex ey
    have hu : segParam p0 p1 (mp_float32x2_add rayO (mp_float32x2_mul1 rayD
          (-((p1.y - p0.y) * p0.x - (p1.x - p0.x) * p0.y + -(p1.y - p0.y) * rayO.x +
              (p1.x - p0.x) * rayO.y) /
            (-(p1.y - p0.y) * rayD.x + (p1.x - p0.x) * rayD.y)))) = u := by
      apply segParam_of_point p0 p1 _ u hd
      · rw [x2_add_mul1_x, ht, mul_comm, ex]
      · rw [x2_add_mul1_y, ht, mul_comm, ey]
    rw [hu, ht]
    exact ⟨hd, ⟨hden, hs⟩, hu0, hu1⟩

/-- C10, as stated, fails in two ways.  The ray from (0, 0) along (1, 0)
runs through the segment (1, 0)-(2, 0), which lies on the ray's own line,
and through the zero-length segment at (1, 0); in both cases a point of the
ray is a point of the segment, and the query returns false. -/
theorem C10_counterexample_collinear_segment :
    ((mp_ray_line_segment_intersection_float32x2 (K := ℚ) { x := 0, y := 0 }
        { x := 0, y := 0 } { x := 1, y := 0 } { x := 1, y := 0 } { x := 2, y := 0 } none).1 = false ∧
      RayMeetsSegment (K := ℚ) { x := 0, y := 0 } { x := 1, y := 0 } { x := 1, y := 0 }
        { x := 2, y := 0 }) ∧
    ((mp_ray_line_segment_intersection_float32x2 (K := ℚ) { x := 0, y := 0 }
        { x := 0, y := 0 } { x := 1, y := 0 } { x := 1, y := 0 } { x := 1, y := 0 } none).1 = false ∧
      RayMeetsSegment (K := ℚ) { x := 0, y := 0 } { x := 1, y := 0 } { x := 1, y := 0 }
        { x := 1, y := 0 }) := by
  refine ⟨⟨?_, 1, 0, ?_⟩, ⟨?_, 1, 0, ?_⟩⟩
  · rw [← Bool.not_eq_true, seg_true_iff_meets]
    norm_num
  · norm_num
  · rw [← Bool.not_eq_true, seg_true_iff_meets]
    norm_num
  · norm_num

/-- C10 (amended): `mp_ray_line_segment_intersection_float32x2` returns true
exactly when the ray direction is not parallel to the segment (which
excludes a zero-length segment and a zero direction) and some point
`O + s * D` with `s ≥ 0` is a point `p0 + u * (p1 - p0)` with `u` in
`[0, 1]`; it returns false otherwise.  For `O = (0, -1)`, `D = (0, 1)` it
returns true on the segment (-1, 0)-(1, 0) and false on (1, 0)-(2, 0). -/
theorem C10_ray_segment_true_iff (li rayO rayD p0 p1 : mp_float32x2 K)
    (out : Option (mp_float32x2 K)) :
    ((mp_ray_line_segment_intersection_float32x2 li rayO rayD p0 p1 out).1 = true ↔
      (-(p1.y - p0.y) * rayD.x + (p1.x - p0.x) * rayD.y ≠ 0 ∧
        RayMeetsSegment rayO rayD p0 p1)) ∧
    (mp_ray_line_segment_intersection_float32x2 (K := K) li { x := 0, y := -1 }
        { x := 0, y := 1 } { x := -1, y := 0 } { x := 1, y := 0 } out).1 = true ∧
    (mp_ray_line_segment_intersection_float32x2 (K := K) li { x := 0, y := -1 }
        { x := 0, y := 1 } { x := 1, y := 0 } { x := 2, y := 0 } out).1 = false := by
  refine ⟨seg_true_iff_meets li rayO rayD p0 p1 out, ?_, ?_⟩
  · rw [seg_true_iff_meets]
    refine ⟨by norm_num, 1, 1 / 2, ?_⟩
    norm_num
  · rw [← Bool.not_eq_true, seg_true_iff_meets]
    rintro ⟨_, s, u, _, hu0, _, ex, _⟩
    norm_num at ex
    linarith

end GeometryClaims

/-! ## Geometric queries: claims C11 to C16 -/

section SegmentPointClaims

variable {K : Type} [LinearOrderedField K]

theorem seg_true_point (li rayO rayD p0 p1 X0 : mp_float32x2 K)
    (h : (mp_ray_line_segment_intersection_float32x2 li rayO rayD p0 p1 (some X0)).1 = true) :
    mp_ray_line_segment_intersection_float32x2 li rayO rayD p0 p1 (some X0) =
      (true, some (mp_float32x2_add p0 (mp_float32x2_mul1 (mp_float32x2_sub p1 p0)
        (segParam p0 p1 (mp_float32x2_add rayO (mp_float32x2_mul1 rayD
          (-((p1.y - p0.y) * p0.x - (p1.x - p0.x) * p0.y + -(p1.y - p0.y) * rayO.x +
              (p1.x - p0.x) * rayO.y) /
            (-(p1.y - p0.y) * rayD.x + (p1.x - p0.x) * rayD.y)))))))) := by
  obtain ⟨hd, hin, hu0, hu1⟩ := (seg_true_iff li rayO rayD p0 p1 (some X0)).1 h
  rw [seg_unfold, if_neg hd, ray_line_true_point _ _ _ _ _ _ hin]
  simp only
  rw [if_neg (not_or.2 ⟨not_lt.2 hu0, not_lt.2 hu1⟩)]

theorem x2_add_mul1_sub_x (p0 p1 : mp_float32x2 K) (u : K) :
    (mp_float32x2_add p0 (mp_float32x2_mul1 (mp_float32x2_sub p1 p0) u)).x =
      p0.x + (p1.x - p0.x) * u := rfl

theorem x2_add_mul1_sub_y (p0 p1 : mp_float32x2 K) (u : K) :
    (mp_float32x2_add p0 (mp_float32x2_mul1 (mp_float32x2_sub p1 p0) u)).y =
      p0.y + (p1.y - p0.y) * u := rfl

/-- C11: whenever `mp_ray_line_segment_intersection_float32x2` returns true
with a non-null output, the point `X` it writes lies on the segment,
`X = p0 + u * (p1 - p0)` with `u` in `[0, 1]`, and is the point `O + t * D`,
`t ≥ 0`, where the ray meets the line through `p0` and `p1` in the implicit
form `A = -(p1.y - p0.y)`, `B = p1.x - p0.x`,
`C = (p1.y - p0.y) * p0.x - (p1.x - p0.x) * p0.y`. -/
theorem C11_ray_segment_point (li rayO rayD p0 p1 X0 : mp_float32x2 K)
    (h : (mp_ray_line_segment_intersection_float32x2 li rayO rayD p0 p1 (some X0)).1 = true) :
    ∃ (X : mp_float32x2 K) (u : K),
      (mp_ray_line_segment_intersection_float32x2 li rayO rayD p0 p1 (some X0)).2 = some X ∧
      0 ≤ u ∧ u ≤ 1 ∧
      X.x = p0.x + u * (p1.x - p0.x) ∧ X.y = p0.y + u * (p1.y - p0.y) ∧
      0 ≤ -((p1.y - p0.y) * p0.x - (p1.x - p0.x) * p0.y + -(p1.y - p0.y) * rayO.x +
              (p1.x - p0.x) * rayO.y) /
            (-(p1.y - p0.y) * rayD.x + (p1.x - p0.x) * rayD.y) ∧
      X.x = rayO.x +
        -((p1.y - p0.y) * p0.x - (p1.x - p0.x) * p0.y + -(p1.y - p0.y) * rayO.x +
              (p1.x - p0.x) * rayO.y) /
            (-(p1.y - p0.y) * rayD.x + (p1.x - p0.x) * rayD.y) * rayD.x ∧
      X.y = rayO.y +
        -((p1.y - p0.y) * p0.x - (p1.x - p0.x) * p0.y + -(p1.y - p0.y) * rayO.x +
              (p1.x - p0.x) * rayO.y) /
            (-(p1.y - p0.y) * rayD.x + (p1.x - p0.x) * rayD.y) * rayD.y := by
  obtain ⟨hd, hin, hu0, hu1⟩ := (seg_true_iff li rayO rayD p0 p1 (some X0)).1 h
  obtain ⟨hden, ht⟩ := (ray_line_true_iff _ _ _ _ _ _).1 hin
  have hline : -(p1.y - p0.y) * ((mp_float32x2_add rayO (mp_float32x2_mul1 rayD
        (-((p1.y - p0.y) * p0.x - (p1.x - p0.x) * p0.y + -(p1.y - p0.y) * rayO.x +
            (p1.x - p0.x) * rayO.y) /
          (-(p1.y - p0.y) * rayD.x + (p1.x - p0.x) * rayD.y)))).x - p0.x) +
      (p1.x - p0.x) * ((mp_float32x2_add rayO (mp_float32x2_mul1 rayD
        (-((p1.y - p0.y) * p0.x - (p1.x - p0.x) * p0.y + -(p1.y - p0.y) * rayO.x +
            (p1.x - p0.x) * rayO.y) /
          (-(p1.y - p0.y) * rayD.x + (p1.x - p0.x) * rayD.y)))).y - p0.y) = 0 := by
    rw [x2_add_mul1_x, x2_add_mul1_y]
    linear_combination ray_point_on_line (-(p1.y - p0.y)) (p1.x - p0.x)
      ((p1.y - p0.y) * p0.x - (p1.x - p0.x) * p0.y) rayO.x rayO.y rayD.x rayD.y hden
  obtain ⟨hx, hy⟩ := point_of_segParam p0 p1 _ hd hline
  rw [x2_add_mul1_x] at hx
  rw [x2_add_mul1_y] at hy
  rw [seg_true_point li rayO rayD p0 p1 X0 h]
  refine ⟨_, _, rfl, hu0, hu1, ?_, ?_, ht, ?_, ?_⟩
  · rw [x2_add_mul1_sub_x, mul_comm]
  · rw [x2_add_mul1_sub_y, mul_comm]
  · rw [x2_add_mul1_sub_x]
    linear_combination (-1 : K) * hx
  · rw [x2_add_mul1_sub_y]
    linear_combination (-1 : K) * hy

/-- C11 at the test case of the spec: `O = (0, -1)`, `D = (0, 1)` and the
segment (-1, 0)-(1, 0): the query returns true and writes `X = (0, 0)`. -/
theorem C11_ray_segment_point_witness :
    (mp_ray_line_segment_intersection_float32x2 (K := ℚ) { x := 9, y := 9 }
        { x := 0, y := -1 } { x := 0, y := 1 } { x := -1, y := 0 } { x := 1, y := 0 }
        (some { x := 7, y := 7 })).1 = true ∧
    (mp_ray_line_segment_intersection_float32x2 (K := ℚ) { x := 9, y := 9 }
        { x := 0, y := -1 } { x := 0, y := 1 } { x := -1, y := 0 } { x := 1, y := 0 }
        (some { x := 7, y := 7 })).2 = some { x := 0, y := 0 } := by
  have h : (mp_ray_line_segment_intersection_float32x2 (K := ℚ) { x := 9, y := 9 }
        { x := 0, y := -1 } { x := 0, y := 1 } { x := -1, y := 0 } { x := 1, y := 0 }
        (some { x := 7, y := 7 })).1 = true := by
    rw [seg_true_iff_meets]
    refine ⟨by norm_num, 1, 1 / 2, ?_⟩
    norm_num
  obtain ⟨X, u, hX, _, _, _, _, _, hx, hy⟩ :=
    C11_ray_segment_point (K := ℚ) { x := 9, y := 9 } { x := 0, y := -1 } { x := 0, y := 1 }
      { x := -1, y := 0 } { x := 1, y := 0 } { x := 7, y := 7 } h
  refine ⟨h, ?_⟩
  rw [hX]
  have hx0 : X.x = 0 := by rw [hx]; norm_num
  have hy0 : X.y = 0 := by rw [hy]; norm_num
  cases X
  simp only at hx0 hy0
  rw [hx0, hy0]

end SegmentPointClaims

section PointPlaneClaims

variable {K : Type} [LinearOrderedField K]

theorem x2_distance2_eq (v0 v1 : mp_float32x2 K) :
    mp_float32x2_distance2 v0 v1 =
      (v0.x - v1.x) * (v0.x - v1.x) + (v0.y - v1.y) * (v0.y - v1.y) := rfl

theorem closest_point_of_ne (p : mp_float32x2 K) (A B C : K) (h : A * A + B * B ≠ 0) :
    mp_closest_point_on_plane_to_point p A B C =
      { x := (B * (B * p.x - A * p.y) - A * C) / (A * A + B * B)
        y := (A * (A * p.y - B * p.x) - B * C) / (A * A + B * B) } := by
  unfold mp_closest_point_on_plane_to_point
  simp only [if_neg h]

theorem closest_point_of_eq (p : mp_float32x2 K) (A B C : K) (h : A * A + B * B = 0) :
    mp_closest_point_on_plane_to_point p A B C = p := by
  unfold mp_closest_point_on_plane_to_point
  simp only [if_pos h]

/-- C12: for `A * A + B * B ≠ 0`, the point `r` returned by
`mp_closest_point_on_plane_to_point` lies on the line `A x + B y + C = 0`,
and no point `q` of the line is closer to `p`: the squared distance from `p`
to `r` is at most the squared distance from `p` to `q`. -/
theorem C12_closest_point_is_closest (p : mp_float32x2 K) (A B C : K)
    (h : A * A + B * B ≠ 0) :
    A * (mp_closest_point_on_plane_to_point p A B C).x +
        B * (mp_closest_point_on_plane_to_point p A B C).y + C = 0 ∧
      ∀ q : mp_float32x2 K, A * q.x + B * q.y + C = 0 →
        mp_float32x2_distance2 p (mp_closest_point_on_plane_to_point p A B C) ≤
          mp_float32x2_distance2 p q := by
  have hpos : 0 < A * A + B * B :=
    lt_of_le_of_ne (add_nonneg (mul_self_nonneg A) (mul_self_nonneg B)) (Ne.symm h)
  rw [closest_point_of_ne p A B C h]
  constructor
  · show A * ((B * (B * p.x - A * p.y) - A * C) / (A * A + B * B)) +
        B * ((A * (A * p.y - B * p.x) - B * C) / (A * A + B * B)) + C = 0
    field_simp
    ring
  · intro q hq
    have e : mp_float32x2_distance2 p
        { x := (B * (B * p.x - A * p.y) - A * C) / (A * A + B * B)
          y := (A * (A * p.y - B * p.x) - B * C) / (A * A + B * B) } =
        (A * p.x + B * p.y + C) ^ 2 / (A * A + B * B) := by
      rw [x2_distance2_eq]
      show (p.x - (B * (B * p.x - A * p.y) - A * C) / (A * A + B * B)) *
          (p.x - (B * (B * p.x - A * p.y) - A * C) / (A * A + B * B)) +
        (p.y - (A * (A * p.y - B * p.x) - B * C) / (A * A + B * B)) *
          (p.y - (A * (A * p.y - B * p.x) - B * C) / (A * A + B * B)) = _
      field_simp
      ring
    rw [e, div_le_iff₀ hpos, x2_distance2_eq]
    have hs : A * p.x + B * p.y + C = A * (p.x - q.x) + B * (p.y - q.y) := by
      linear_combination hq
    rw [hs]
    nlinarith [sq_nonneg (A * (p.y - q.y) - B * (p.x - q.x))]

/-- C12 at a concrete input: the point (1, 2) and the line
`3 x + 4 y - 5 = 0`; the closest point is (7/25, 26/25). -/
theorem C12_closest_point_is_closest_witness :
    (3 : ℚ) * 3 + 4 * 4 ≠ 0 ∧
      mp_closest_point_on_plane_to_point (K := ℚ) { x := 1, y := 2 } 3 4 (-5) =
        { x := 7 / 25, y := 26 / 25 } ∧
      ∀ q : mp_float32x2 ℚ, 3 * q.x + 4 * q.y + -5 = 0 →
        mp_float32x2_distance2 (K := ℚ) { x := 1, y := 2 } { x := 7 / 25, y := 26 / 25 } ≤
          mp_float32x2_distance2 (K := ℚ) { x := 1, y := 2 } q := by
  have h : (3 : ℚ) * 3 + 4 * 4 ≠ 0 := by norm_num
  have e : mp_closest_point_on_plane_to_point (K := ℚ) { x := 1, y := 2 } 3 4 (-5) =
      { x := 7 / 25, y := 26 / 25 } := by
    rw [closest_point_of_ne _ _ _ _ h]
    norm_num
  have key := (C12_closest_point_is_closest (K := ℚ) { x := 1, y := 2 } 3 4 (-5) h).2
  rw [e] at key
  exact ⟨h, e, key⟩

theorem ray_line_false_out (rayO rayD : mp_float32x2 K) (A B C : K)
    (out : Option (mp_float32x2 K))
    (h : (mp_ray_line_intersection_float32x2 rayO rayD A B C out).1 = false) :
    (mp_ray_line_intersection_float32x2 rayO rayD A B C out).2 = out := by
  unfold mp_ray_line_intersection_float32x2 at h ⊢
  by_cases h0 : A * rayD.x + B * rayD.y ≠ 0
  · by_cases ht : -(C + A * rayO.x + B * rayO.y) / (A * rayD.x + B * rayD.y) < 0
    · simp only [if_pos h0, if_pos ht]
    · simp only [if_pos h0, if_neg ht] at h
      cases out with
      | none => exact absurd h.symm Bool.false_ne_true
      | some P0 => exact absurd h.symm Bool.false_ne_true
  · simp only [if_neg h0]

theorem seg_false_out (li rayO rayD p0 p1 : mp_float32x2 K) (out : Option (mp_float32x2 K))
    (h : (mp_ray_line_segment_intersection_float32x2 li rayO rayD p0 p1 out).1 = false) :
    (mp_ray_line_segment_intersection_float32x2 li rayO rayD p0 p1 out).2 = out := by
  rw [seg_unfold] at h ⊢
  by_cases hd : p1.x - p0.x = 0 ∧ p1.y - p0.y = 0
  · rw [if_pos hd]
  · rw [if_neg hd] at h ⊢
    by_cases hin : (mp_ray_line_intersection_float32x2 rayO rayD (-(p1.y - p0.y)) (p1.x - p0.x)
            ((p1.y - p0.y) * p0.x - (p1.x - p0.x) * p0.y) (some li)).1 = true
    · rw [ray_line_true_point _ _ _ _ _ _ hin] at h ⊢
      simp only at h ⊢
      split_ifs at h ⊢ with hu
      · rfl
      · cases out with
        | none => exact absurd h.symm Bool.false_ne_true
        | some P0 => exact absurd h.symm Bool.false_ne_true
    · have hq : mp_ray_line_intersection_float32x2 rayO rayD (-(p1.y - p0.y)) (p1.x - p0.x)
            ((p1.y - p0.y) * p0.x - (p1.x - p0.x) * p0.y) (some li) =
          (false, (mp_ray_line_intersection_float32x2 rayO rayD (-(p1.y - p0.y)) (p1.x - p0.x)
            ((p1.y - p0.y) * p0.x - (p1.x - p0.x) * p0.y) (some li)).2) := by
        rw [Bool.not_eq_true] at hin
        rw [← hin]
      rw [hq]

/-- C13: the geometric queries write their output only on success.  On
every input on which `mp_ray_line_intersection_float32x2` or
`mp_ray_line_segment_intersection_float32x2` returns false, the content of
`*pIntersectionPoint` after the call is what it was before; this includes
the segment query whose inner ray/line test succeeds and whose segment
parameter is rejected, as for `O = (0, -1)`, `D = (0, 1)` and the segment
(1, 0)-(2, 0). -/
theorem C13_output_untouched_on_failure (li rayO rayD p0 p1 : mp_float32x2 K) (A B C : K)
    (out : Option (mp_float32x2 K)) :
    ((mp_ray_line_intersection_float32x2 rayO rayD A B C out).1 = false →
        (mp_ray_line_intersection_float32x2 rayO rayD A B C out).2 = out) ∧
      ((mp_ray_line_segment_intersection_float32x2 li rayO rayD p0 p1 out).1 = false →
        (mp_ray_line_segment_intersection_float32x2 li rayO rayD p0 p1 out).2 = out) ∧
      ((mp_ray_line_intersection_float32x2 (K := K) { x := 0, y := -1 } { x := 0, y := 1 }
          (-(0 - 0)) (2 - 1) ((0 - 0) * 1 - (2 - 1) * 0) (some li)).1 = true ∧
        mp_ray_line_segment_intersection_float32x2 (K := K) li { x := 0, y := -1 }
          { x := 0, y := 1 } { x := 1, y := 0 } { x := 2, y := 0 } out = (false, out)) := by
  refine ⟨ray_line_false_out rayO rayD A B C out, seg_false_out li rayO rayD p0 p1 out, ?_, ?_⟩
  · rw [ray_line_true_iff]
    norm_num
  · have hf : (mp_ray_line_segment_intersection_float32x2 (K := K) li { x := 0, y := -1 }
          { x := 0, y := 1 } { x := 1, y := 0 } { x := 2, y := 0 } out).1 = false := by
      rw [← Bool.not_eq_true, seg_true_iff_meets]
      rintro ⟨_, s, u, _, hu0, _, ex, _⟩
      norm_num at ex
      linarith
    have ho := seg_false_out (K := K) li { x := 0, y := -1 } { x := 0, y := 1 }
      { x := 1, y := 0 } { x := 2, y := 0 } out hf
    exact Prod.ext hf ho

/-- C14: a zero-length segment never intersects.  For every ray `(O, D)` and
every point `p`, `mp_ray_line_segment_intersection_float32x2 (O, D, p, p, out)`
returns false and leaves the output alone, also when `p` is the origin `O`
of the ray and so lies on it. -/
theorem C14_degenerate_segment_never_intersects (li rayO rayD p : mp_float32x2 K)
    (out : Option (mp_float32x2 K)) :
    mp_ray_line_segment_intersection_float32x2 li rayO rayD p p out = (false, out) ∧
      (mp_ray_line_segment_intersection_float32x2 li rayO rayD p p out).1 = false ∧
      (mp_ray_line_segment_intersection_float32x2 li rayO rayD rayO rayO out).1 = false := by
  have key : ∀ q : mp_float32x2 K,
      mp_ray_line_segment_intersection_float32x2 li rayO rayD q q out = (false, out) := by
    intro q
    rw [seg_unfold, if_pos ⟨sub_self _, sub_self _⟩]
  refine ⟨key p, ?_, ?_⟩
  · rw [key p]
  · rw [key rayO]

/-- C15: `mp_closest_point_on_plane_to_point (p, 0, 0, C)` returns `p`; more
generally `p` is returned whenever `A * A + B * B = 0`; and on no input does
the function divide by zero: the version that records its divisions always
yields the result. -/
theorem C15_closest_point_zero_normal (p : mp_float32x2 K) (A B C : K) :
    mp_closest_point_on_plane_to_point p 0 0 C = p ∧
      (A * A + B * B = 0 → mp_closest_point_on_plane_to_point p A B C = p) ∧
      mp_closest_point_on_plane_to_point_checked p A B C =
        some (mp_closest_point_on_plane_to_point p A B C) := by
  refine ⟨closest_point_of_eq p 0 0 C (by ring), closest_point_of_eq p A B C, ?_⟩
  unfold mp_closest_point_on_plane_to_point_checked mp_closest_point_on_plane_to_point checkedDiv
  by_cases h : A * A + B * B = 0
  · simp only [if_pos h]
  · simp only [if_neg h, Option.some_bind]

end PointPlaneClaims

section DistanceClaims

/-- C16, as stated, fails at `A = B = 0`: there
`mp_distance_point_to_plane` divides by `sqrt 0 = 0`, so it has no real
value (for `p = (0, 0)` and `C = 0` the C expression is `0.0f / 0.0f`). -/
theorem C16_counterexample_zero_normal :
    Real.sqrt (0 * 0 + 0 * 0) = 0 ∧
      mp_distance_point_to_plane_checked Real.sqrt ({ x := 0, y := 0 } : mp_float32x2 ℝ)
        0 0 0 = none := by
  have h : Real.sqrt (0 * 0 + 0 * 0) = 0 := by norm_num
  refine ⟨h, ?_⟩
  unfold mp_distance_point_to_plane_checked checkedDiv
  rw [if_pos h]

/-- C16 (amended): for `A * A + B * B ≠ 0`, `mp_distance_point_to_plane`
divides by a non-zero number, its result is the point-line distance
`|A * p.x + B * p.y + C| / sqrt (A * A + B * B)`, and the result is
non-negative. -/
theorem C16_distance_point_to_plane (p : mp_float32x2 ℝ) (A B C : ℝ)
    (h : A * A + B * B ≠ 0) :
    mp_distance_point_to_plane_checked Real.sqrt p A B C =
        some (mp_distance_point_to_plane Real.sqrt p A B C) ∧
      mp_distance_point_to_plane Real.sqrt p A B C =
        |A * p.x + B * p.y + C| / Real.sqrt (A * A + B * B) ∧
      0 ≤ mp_distance_point_to_plane Real.sqrt p A B C := by
  have hpos : 0 < A * A + B * B :=
    lt_of_le_of_ne (add_nonneg (mul_self_nonneg A) (mul_self_nonneg B)) (Ne.symm h)
  have hs : Real.sqrt (A * A + B * B) ≠ 0 := (Real.sqrt_pos.2 hpos).ne'
  refine ⟨?_, rfl, ?_⟩
  · unfold mp_distance_point_to_plane_checked mp_distance_point_to_plane checkedDiv
    rw [if_neg hs]
  · exact div_nonneg (abs_nonneg _) (Real.sqrt_nonneg _)

/-- C16 (amended) at a concrete input: the origin and the line `x = 5`, at
distance 5. -/
theorem C16_distance_point_to_plane_witness :
    (1 : ℝ) * 1 + 0 * 0 ≠ 0 ∧
      mp_distance_point_to_plane_checked Real.sqrt ({ x := 0, y := 0 } : mp_float32x2 ℝ)
        1 0 (-5) = some 5 := by
  have h : (1 : ℝ) * 1 + 0 * 0 ≠ 0 := by norm_num
  obtain ⟨h1, h2, _⟩ := C16_distance_point_to_plane { x := 0, y := 0 } 1 0 (-5) h
  refine ⟨h, ?_⟩
  rw [h1, h2]
  norm_num

end DistanceClaims

/-! ## Fixed point: claims C17 to C20 -/

section FixedPointClaims

theorem MP_FIXED32_ONE_eq : MP_FIXED32_ONE = 65536 := by decide

theorem MP_FIXED64_ONE_eq : MP_FIXED64_ONE = 4294967296 := by decide

theorem fixed32_mul_eq (x y : Nat) (hx : x < 2 ^ 32) (hy : y < 2 ^ 32) :
    mp_fixed32_mul x y = (x * y / 2 ^ 16) % 2 ^ 32 := by
  have hP : x * y < 2 ^ 64 := by
    have h1 : x * y ≤ (2 ^ 32 - 1) * (2 ^ 32 - 1) :=
      Nat.mul_le_mul (by omega) (by omega)
    have h2 : (2 ^ 32 - 1) * (2 ^ 32 - 1) < 2 ^ 64 := by norm_num
    omega
  unfold mp_fixed32_mul wrapInt64 MP_FIXED32_SHIFT
  have hc : (x : Int) * (y : Int) = ((x * y : Nat) : Int) := by push_cast; rfl
  rw [hc]
  generalize x * y = P at hP ⊢
  omega

theorem fixed64_mul_eq (x y : Nat) :
    mp_fixed64_mul x y = ((x * y) % 2 ^ 64) / 2 ^ 32 := by
  unfold mp_fixed64_mul MP_FIXED64_SHIFT
  rw [Nat.shiftRight_eq_div_pow]

theorem fixed64_mul_one (x : Nat) : mp_fixed64_mul x MP_FIXED64_ONE = x % 2 ^ 32 := by
  rw [fixed64_mul_eq, MP_FIXED64_ONE_eq]
  omega

theorem fixed32_div_eq (x y : Nat) : mp_fixed32_div x y = x / y := rfl

variable {K : Type} [LinearOrderedField K] [FloorRing K]

theorem fixed_from_float_cast (v : K) (n : Nat) (h0 : 0 ≤ v) (h1 : v < 2 ^ n) :
    (((truncToInt v % 2 ^ n).toNat : Nat) : K) = ((⌊v⌋ : Int) : K) := by
  have hf0 : 0 ≤ ⌊v⌋ := Int.floor_nonneg.2 h0
  have hf1 : ⌊v⌋ < 2 ^ n := by
    rw [Int.floor_lt]
    exact_mod_cast h1
  have e1 : truncToInt v = ⌊v⌋ := by rw [truncToInt, if_pos h0]
  have e2 : ⌊v⌋ % 2 ^ n = ⌊v⌋ := Int.emod_eq_of_lt hf0 hf1
  rw [e1, e2]
  have e3 : ((⌊v⌋.toNat : Nat) : Int) = ⌊v⌋ := Int.toNat_of_nonneg hf0
  have e4 : (((⌊v⌋.toNat : Nat) : Int) : K) = ((⌊v⌋ : Int) : K) := by rw [e3]
  rw [← e4]
  norm_cast

theorem fixed_round_trip (x : K) (n : Nat) (h0 : 0 ≤ x) (h1 : x < 2 ^ n) :
    |(((truncToInt (x * 2 ^ n) % 2 ^ (n + n)).toNat : Nat) : K) / 2 ^ n - x| < 1 / 2 ^ n := by
  have hp : (0 : K) < 2 ^ n := by positivity
  have hv0 : 0 ≤ x * 2 ^ n := mul_nonneg h0 hp.le
  have hv1 : x * 2 ^ n < 2 ^ (n + n) := by
    rw [pow_add]
    exact mul_lt_mul_of_pos_right h1 hp
  rw [fixed_from_float_cast _ _ hv0 hv1]
  have hfl := Int.floor_le (x * 2 ^ n)
  have hfu := Int.lt_floor_add_one (x * 2 ^ n)
  rw [abs_lt]
  constructor
  · rw [lt_sub_iff_add_lt, lt_div_iff₀ hp]
    have : (-(1 / 2 ^ n) + x) * 2 ^ n = x * 2 ^ n - 1 := by
      field_simp
      ring
    rw [this]
    linarith
  · rw [sub_lt_iff_lt_add, div_lt_iff₀ hp]
    have : (1 / 2 ^ n + x) * 2 ^ n = x * 2 ^ n + 1 := by
      field_simp
      ring
    rw [this]
    linarith


/-- C17: fixed-point round trip.  For `0 ≤ x < 2 ^ 16`,
`mp_float32_from_fixed32 (mp_fixed32_from_float32 x)` differs from `x` by
less than `2 ^ -16`, and for `0 ≤ y < 2 ^ 32`,
`mp_float64_from_fixed64 (mp_fixed64_from_float64 y)` differs from `y` by
less than `2 ^ -32`, the conversions read in exact arithmetic and the cast
as truncation. -/
theorem C17_fixed_round_trip (x y : K) (hx0 : 0 ≤ x) (hx1 : x < 2 ^ 16)
    (hy0 : 0 ≤ y) (hy1 : y < 2 ^ 32) :
    |mp_float32_from_fixed32 (mp_fixed32_from_float32 x) - x| < 1 / 2 ^ 16 ∧
      |mp_float64_from_fixed64 (mp_fixed64_from_float64 y) - y| < 1 / 2 ^ 32 := by
  have e32 : (MP_FIXED32_ONE : K) = 2 ^ 16 := by
    rw [MP_FIXED32_ONE_eq]
    norm_num
  have e64 : (MP_FIXED64_ONE : K) = 2 ^ 32 := by
    rw [MP_FIXED64_ONE_eq]
    norm_num
  constructor
  · unfold mp_float32_from_fixed32 mp_fixed32_from_float32
    rw [e32]
    exact fixed_round_trip x 16 hx0 hx1
  · unfold mp_float64_from_fixed64 mp_fixed64_from_float64
    rw [e64]
    exact fixed_round_trip y 32 hy0 hy1

/-- C17 at a concrete input: 1/3 in both representations. -/
theorem C17_fixed_round_trip_witness :
    (0 : ℚ) ≤ 1 / 3 ∧ (1 / 3 : ℚ) < 2 ^ 16 ∧ (1 / 3 : ℚ) < 2 ^ 32 ∧
      |(mp_float32_from_fixed32 (mp_fixed32_from_float32 (1 / 3 : ℚ)) : ℚ) - 1 / 3| <
        1 / 2 ^ 16 ∧
      |(mp_float64_from_fixed64 (mp_fixed64_from_float64 (1 / 3 : ℚ)) : ℚ) - 1 / 3| <
        1 / 2 ^ 32 := by
  have h0 : (0 : ℚ) ≤ 1 / 3 := by norm_num
  have h1 : (1 / 3 : ℚ) < 2 ^ 16 := by norm_num
  have h2 : (1 / 3 : ℚ) < 2 ^ 32 := by norm_num
  exact ⟨h0, h1, h2, C17_fixed_round_trip (1 / 3 : ℚ) (1 / 3) h0 h1 h0 h2⟩

/-- C18: for all 32-bit raw values `x`, `y`,
`mp_fixed32_mul x y = ⌊x * y / 2 ^ 16⌋ mod 2 ^ 32` with `x * y` taken over
the unbounded integers, and `mp_fixed32_mul x MP_FIXED32_ONE = x`.  (A
product of `2 ^ 63` or more overflows the `mp_int64`; the wraparound does
not reach the 32 bits that are kept.) -/
theorem C18_fixed32_mul_widened (x y : Nat) (hx : x < 2 ^ 32) (hy : y < 2 ^ 32) :
    mp_fixed32_mul x y = (x * y / 2 ^ 16) % 2 ^ 32 ∧
      mp_fixed32_mul x MP_FIXED32_ONE = x := by
  refine ⟨fixed32_mul_eq x y hx hy, ?_⟩
  rw [fixed32_mul_eq x MP_FIXED32_ONE hx (by decide), MP_FIXED32_ONE_eq]
  omega

/-- C18 at a concrete input: 3.0 times 0.5 is 1.5, and a product that
overflows the `mp_int64`. -/
theorem C18_fixed32_mul_widened_witness :
    3 * 65536 < 2 ^ 32 ∧ 32768 < 2 ^ 32 ∧
      mp_fixed32_mul (3 * 65536) 32768 = 98304 ∧
      mp_fixed32_mul 4294967295 4294967295 = (4294967295 * 4294967295 / 2 ^ 16) % 2 ^ 32 := by
  have h1 : 3 * 65536 < 2 ^ 32 := by norm_num
  have h2 : 32768 < 2 ^ 32 := by norm_num
  have h3 : 4294967295 < 2 ^ 32 := by norm_num
  refine ⟨h1, h2, ?_, (C18_fixed32_mul_widened 4294967295 4294967295 h3 h3).1⟩
  rw [(C18_fixed32_mul_widened (3 * 65536) 32768 h1 h2).1]
  norm_num

/-- C19, the code at the failing input: `mp_fixed64_mul` forms the product
in `mp_uint64`, so 1.0 times 1.0 (`MP_FIXED64_ONE` twice) gives 0 where
`⌊x * y / 2 ^ 32⌋ mod 2 ^ 64` is `MP_FIXED64_ONE`, and 3.0 times 1.0 gives 0
and not 3.0. -/
theorem C19_fixed64_mul_loses_high_bits :
    mp_fixed64_mul MP_FIXED64_ONE MP_FIXED64_ONE = 0 ∧
      (MP_FIXED64_ONE * MP_FIXED64_ONE / 2 ^ 32) % 2 ^ 64 = MP_FIXED64_ONE ∧
      MP_FIXED64_ONE < 2 ^ 64 ∧
      mp_fixed64_mul (3 * MP_FIXED64_ONE) MP_FIXED64_ONE = 0 ∧
      3 * MP_FIXED64_ONE < 2 ^ 64 := by
  decide

/-- C20, the code at the failing input: `mp_fixed32_div` is `x / y` on the
raw values, so 1.0 divided by 1.0 (`MP_FIXED32_ONE` twice) gives the raw
value 1 where `⌊x * 2 ^ 16 / y⌋ mod 2 ^ 32` is `MP_FIXED32_ONE`, and 3.0
divided by 1.0 gives the raw value 3; `mp_fixed64_div` likewise. -/
theorem C20_fixed_div_is_raw_quotient :
    mp_fixed32_div MP_FIXED32_ONE MP_FIXED32_ONE = 1 ∧
      (MP_FIXED32_ONE * 2 ^ 16 / MP_FIXED32_ONE) % 2 ^ 32 = MP_FIXED32_ONE ∧
      MP_FIXED32_ONE = 65536 ∧
      mp_fixed32_div (3 * MP_FIXED32_ONE) MP_FIXED32_ONE = 3 ∧
      mp_fixed64_div MP_FIXED64_ONE MP_FIXED64_ONE = 1 ∧
      (MP_FIXED64_ONE * 2 ^ 32 / MP_FIXED64_ONE) % 2 ^ 64 = MP_FIXED64_ONE ∧
      MP_FIXED64_ONE = 4294967296 := by
  decide

end FixedPointClaims

/-! ## Vector algebra: claims C21 to C23, C27 and C28 -/

section VectorClaims

variable {K : Type} [LinearOrderedField K]

theorem x4_mul1_eq (v : mp_float32x4 K) (a : K) :
    mp_float32x4_mul1 v a = { x := v.x * a, y := v.y * a, z := v.z * a, w := v.z * a } := rfl

theorem x2_mul1_eq (v : mp_float32x2 K) (a : K) :
    mp_float32x2_mul1 v a = { x := v.x * a, y := v.y * a } := rfl

theorem x3_mul1_eq (v : mp_float32x3 K) (a : K) :
    mp_float32x3_mul1 v a = { x := v.x * a, y := v.y * a, z := v.z * a } := rfl

/-- C21, the code at the failing input: `mp_float32x4_mul1` applied to
`(0, 0, 0, 1)` and the scalar 1 returns `(0, 0, 0, 0)`, its fourth component
being `v.z * a` and not `v.w * a`; component-wise scaling gives
`(0, 0, 0, 1)`. -/
theorem C21_x4_mul1_fourth_component :
    mp_float32x4_mul1 (K := ℚ) { x := 0, y := 0, z := 0, w := 1 } 1 =
        { x := 0, y := 0, z := 0, w := 0 } ∧
      ({ x := 0 * 1, y := 0 * 1, z := 0 * 1, w := 1 * 1 } : mp_float32x4 ℚ) ≠
        mp_float32x4_mul1 { x := 0, y := 0, z := 0, w := 1 } 1 ∧
      mp_float32x4_mul1 (K := ℚ) { x := 1, y := 2, z := 3, w := 4 } 2 =
        { x := 2, y := 4, z := 6, w := 6 } := by
  refine ⟨?_, ?_, ?_⟩
  · rw [x4_mul1_eq]; norm_num
  · rw [x4_mul1_eq]; norm_num
  · rw [x4_mul1_eq]; norm_num

/-- C22: for a vector `v` of non-zero length, `mp_float32x2_normalize v` and
`mp_float32x3_normalize v` have length 1 and are `v` scaled by the positive
number `1 / length v`, the division being by a non-zero number. -/
theorem C22_normalize_unit (v : mp_float32x2 ℝ) (u : mp_float32x3 ℝ)
    (hv : mp_float32x2_length Real.sqrt v ≠ 0) (hu : mp_float32x3_length Real.sqrt u ≠ 0) :
    (mp_float32x2_length Real.sqrt (mp_float32x2_normalize Real.sqrt v) = 1 ∧
      0 < 1 / mp_float32x2_length Real.sqrt v ∧
      checkedDiv 1 (mp_float32x2_length Real.sqrt v) =
        some (1 / mp_float32x2_length Real.sqrt v) ∧
      mp_float32x2_normalize Real.sqrt v =
        { x := v.x * (1 / mp_float32x2_length Real.sqrt v)
          y := v.y * (1 / mp_float32x2_length Real.sqrt v) }) ∧
    (mp_float32x3_length Real.sqrt (mp_float32x3_normalize Real.sqrt u) = 1 ∧
      0 < 1 / mp_float32x3_length Real.sqrt u ∧
      checkedDiv 1 (mp_float32x3_length Real.sqrt u) =
        some (1 / mp_float32x3_length Real.sqrt u) ∧
      mp_float32x3_normalize Real.sqrt u =
        { x := u.x * (1 / mp_float32x3_length Real.sqrt u)
          y := u.y * (1 / mp_float32x3_length Real.sqrt u)
          z := u.z * (1 / mp_float32x3_length Real.sqrt u) }) := by
  constructor
  · have hpos : 0 < mp_float32x2_length Real.sqrt v :=
      lt_of_le_of_ne (Real.sqrt_nonneg _) (Ne.symm hv)
    have h2 : 0 ≤ v.x * v.x + v.y * v.y :=
      add_nonneg (mul_self_nonneg _) (mul_self_nonneg _)
    have hsq : mp_float32x2_length Real.sqrt v * mp_float32x2_length Real.sqrt v =
        v.x * v.x + v.y * v.y := Real.mul_self_sqrt h2
    refine ⟨?_, by positivity, ?_, rfl⟩
    · generalize hl : mp_float32x2_length Real.sqrt v = l at hpos hsq
      have e : mp_float32x2_length Real.sqrt (mp_float32x2_normalize Real.sqrt v) =
          Real.sqrt (v.x * (1 / l) * (v.x * (1 / l)) + v.y * (1 / l) * (v.y * (1 / l))) := by
        rw [← hl]
        rfl
      rw [e]
      have e2 : v.x * (1 / l) * (v.x * (1 / l)) + v.y * (1 / l) * (v.y * (1 / l)) = 1 := by
        field_simp
        linarith
      rw [e2, Real.sqrt_one]
    · rw [checkedDiv, if_neg hv]
  · have hpos : 0 < mp_float32x3_length Real.sqrt u :=
      lt_of_le_of_ne (Real.sqrt_nonneg _) (Ne.symm hu)
    have h2 : 0 ≤ u.x * u.x + u.y * u.y + u.z * u.z :=
      add_nonneg (add_nonneg (mul_self_nonneg _) (mul_self_nonneg _)) (mul_self_nonneg _)
    have hsq : mp_float32x3_length Real.sqrt u * mp_float32x3_length Real.sqrt u =
        u.x * u.x + u.y * u.y + u.z * u.z := Real.mul_self_sqrt h2
    refine ⟨?_, by positivity, ?_, rfl⟩
    · generalize hl : mp_float32x3_length Real.sqrt u = l at hpos hsq
      have e : mp_float32x3_length Real.sqrt (mp_float32x3_normalize Real.sqrt u) =
          Real.sqrt (u.x * (1 / l) * (u.x * (1 / l)) + u.y * (1 / l) * (u.y * (1 / l)) +
            u.z * (1 / l) * (u.z * (1 / l))) := by
        rw [← hl]
        rfl
      rw [e]
      have e2 : u.x * (1 / l) * (u.x * (1 / l)) + u.y * (1 / l) * (u.y * (1 / l)) +
            u.z * (1 / l) * (u.z * (1 / l)) = 1 := by
        field_simp
        linarith
      rw [e2, Real.sqrt_one]
    · rw [checkedDiv, if_neg hu]


/-- C22 at concrete inputs: `(3, 4)` of length 5 and `(1, 2, 2)` of length
3. -/
theorem C22_normalize_unit_witness :
    mp_float32x2_length Real.sqrt { x := 3, y := 4 } ≠ 0 ∧
      mp_float32x3_length Real.sqrt { x := 1, y := 2, z := 2 } ≠ 0 ∧
      mp_float32x2_length Real.sqrt (mp_float32x2_normalize Real.sqrt { x := 3, y := 4 }) = 1 ∧
      mp_float32x3_length Real.sqrt
        (mp_float32x3_normalize Real.sqrt { x := 1, y := 2, z := 2 }) = 1 := by
  have h2 : mp_float32x2_length Real.sqrt { x := 3, y := 4 } ≠ 0 := by
    show Real.sqrt ((3 : ℝ) * 3 + 4 * 4) ≠ 0
    exact Real.sqrt_ne_zero'.2 (by norm_num)
  have h3 : mp_float32x3_length Real.sqrt { x := 1, y := 2, z := 2 } ≠ 0 := by
    show Real.sqrt ((1 : ℝ) * 1 + 2 * 2 + 2 * 2) ≠ 0
    exact Real.sqrt_ne_zero'.2 (by norm_num)
  have key := C22_normalize_unit { x := 3, y := 4 } { x := 1, y := 2, z := 2 } h2 h3
  exact ⟨h2, h3, key.1.1, key.2.1⟩

/-- C23, the code at the failing input: `(0, 0, 0, 1)` has length 1, and
`mp_float32x4_normalize` returns `(0, 0, 0, 0)` for it, of length 0: the
fourth component of `mp_float32x4_mul1` is taken from `v.z`. -/
theorem C23_x4_normalize_unit_vector :
    mp_float32x4_length Real.sqrt { x := 0, y := 0, z := 0, w := 1 } = 1 ∧
      mp_float32x4_normalize Real.sqrt { x := 0, y := 0, z := 0, w := 1 } =
        { x := 0, y := 0, z := 0, w := 0 } ∧
      mp_float32x4_length Real.sqrt
        (mp_float32x4_normalize Real.sqrt { x := 0, y := 0, z := 0, w := 1 }) = 0 := by
  have hl : mp_float32x4_length Real.sqrt { x := 0, y := 0, z := 0, w := 1 } = 1 := by
    show Real.sqrt ((0 : ℝ) * 0 + 0 * 0 + 0 * 0 + 1 * 1) = 1
    norm_num
  have hn : mp_float32x4_normalize Real.sqrt { x := 0, y := 0, z := 0, w := 1 } =
      { x := 0, y := 0, z := 0, w := 0 } := by
    rw [mp_float32x4_normalize, hl, x4_mul1_eq]
    norm_num
  refine ⟨hl, hn, ?_⟩
  rw [hn]
  show Real.sqrt ((0 : ℝ) * 0 + 0 * 0 + 0 * 0 + 0 * 0) = 0
  norm_num

/-- C27: `mp_float32x2_perpendicular v = (-v.y, v.x)` and
`mp_float32x2_perpendicular_rev v = (v.y, -v.x)`; each has dot product 0 with
`v` and the squared length of `v`; `perpendicular_rev v` is the negation of
`perpendicular v`; and `perpendicular_rev (perpendicular v) = v`. -/
theorem C27_perpendiculars (v : mp_float32x2 K) :
    mp_float32x2_perpendicular v = { x := -v.y, y := v.x } ∧
      mp_float32x2_perpendicular_rev v = { x := v.y, y := -v.x } ∧
      mp_float32x2_dot (mp_float32x2_perpendicular v) v = 0 ∧
      mp_float32x2_dot (mp_float32x2_perpendicular_rev v) v = 0 ∧
      mp_float32x2_length2 (mp_float32x2_perpendicular v) = mp_float32x2_length2 v ∧
      mp_float32x2_length2 (mp_float32x2_perpendicular_rev v) = mp_float32x2_length2 v ∧
      mp_float32x2_perpendicular_rev v =
        { x := -(mp_float32x2_perpendicular v).x, y := -(mp_float32x2_perpendicular v).y } ∧
      mp_float32x2_perpendicular_rev (mp_float32x2_perpendicular v) = v := by
  refine ⟨rfl, rfl, ?_, ?_, ?_, ?_, ?_, ?_⟩
  · show -v.y * v.x + v.x * v.y = 0
    ring
  · show v.y * v.x + -v.x * v.y = 0
    ring
  · show -v.y * -v.y + v.x * v.x = v.x * v.x + v.y * v.y
    ring
  · show v.y * v.y + -v.x * -v.x = v.x * v.x + v.y * v.y
    ring
  · show ({ x := v.y, y := -v.x } : mp_float32x2 K) = { x := - -v.y, y := -v.x }
    rw [neg_neg]
  · show ({ x := v.x, y := - -v.y } : mp_float32x2 K) = v
    rw [neg_neg]

/-- C28: `mp_float32x2_from_angle a = (cos a, sin a)`, which is
`mp_float32x2_rotate ((1, 0), a)`, and its squared length is 1, with `sin`
and `cos` the real functions. -/
theorem C28_from_angle (a : ℝ) :
    mp_float32x2_from_angle Real.sin Real.cos a = { x := Real.cos a, y := Real.sin a } ∧
      mp_float32x2_from_angle Real.sin Real.cos a =
        mp_float32x2_rotate Real.sin Real.cos { x := 1, y := 0 } a ∧
      mp_float32x2_length2 (mp_float32x2_from_angle Real.sin Real.cos a) = 1 := by
  refine ⟨rfl, ?_, ?_⟩
  · show ({ x := Real.cos a, y := Real.sin a } : mp_float32x2 ℝ) =
      { x := 1 * Real.cos a - 0 * Real.sin a, y := 1 * Real.sin a + 0 * Real.cos a }
    rw [one_mul, zero_mul, sub_zero, one_mul, zero_mul, add_zero]
  · show Real.cos a * Real.cos a + Real.sin a * Real.sin a = 1
    have := Real.sin_sq_add_cos_sq a
    nlinarith

end VectorClaims

/-! ## Configuration and initialisation: claims C24 to C26 -/

section InitClaims

variable {K : Type} [LinearOrderedField K]

/-- C24: `mp_dynamics_world_config_init` returns timestep `1 / 144` and
gravity `(0, -10, 0)`. -/
theorem C24_config_defaults :
    (mp_dynamics_world_config_init (K := K)).timestep = 1 / 144 ∧
      (mp_dynamics_world_config_init (K := K)).gravity = { x := 0, y := -10, z := 0 } := by
  constructor
  · show mp_float32_div (mp_one : K) 144 = 1 / 144
    rfl
  · show mp_float32x3f (0 : K) (-10 * mp_one) 0 = { x := 0, y := -10, z := 0 }
    rw [mp_one, mul_one]
    rfl

theorem init_with_eq (pConfig : mp_dynamics_world_config K)
    (p : Option (mp_dynamics_world K)) :
    mp_dynamics_world_init pConfig p =
      mp_dynamics_world_init_with mp_collision_world_init pConfig p := rfl

/-- C25: `mp_dynamics_world_init` returns `MP_INVALID_ARGS` (-2) for a null
world pointer; otherwise it returns `MP_SUCCESS` (0) and leaves a world with
`dt = 0`, `bodyCount = 0`, every one of the 128 body slots zero, and the
timestep and gravity of the configuration. -/
theorem C25_world_init (pConfig : mp_dynamics_world_config K) (w : mp_dynamics_world K) :
    mp_dynamics_world_init pConfig none = (MP_INVALID_ARGS, none) ∧ MP_INVALID_ARGS = -2 ∧
      ∃ w1, mp_dynamics_world_init pConfig (some w) = (MP_SUCCESS, some w1) ∧
        MP_SUCCESS = 0 ∧ w1.dt = 0 ∧ w1.bodyCount = 0 ∧
        w1.bodies.length = 128 ∧ (∀ b ∈ w1.bodies, b = mp_dynamics_body_zero) ∧
        w1.timestep = pConfig.timestep ∧ w1.gravity = pConfig.gravity := by
  refine ⟨rfl, rfl,
    { (mp_dynamics_world_zero : mp_dynamics_world K) with
      timestep := pConfig.timestep, gravity := pConfig.gravity }, ?_, rfl, rfl, rfl, ?_, ?_, rfl, rfl⟩
  · simp [mp_dynamics_world_init, mp_collision_world_init, mp_dynamics_world_zero]
  · exact List.length_replicate _ _
  · intro b hb
    exact List.eq_of_mem_replicate hb

end InitClaims

/-! ## Signed fixed-point products and repeated sub-steps: claims C29 and C30 -/

section SignedAndClosedFormClaims

/-- C29, the code at the failing input: the encodings of -1.0
(`0xFFFF0000`) and 0.5 (`0x8000`) have the signed product
`⌊-65536 * 32768 / 2 ^ 16⌋ = -32768`, the encoding `0xFFFF8000` of -0.5, and
`mp_fixed32_mul` returns `0x7FFF8000`, which reads as 32767.5: the
operands are widened from `mp_uint32` without their sign. -/
theorem C29_fixed32_mul_negative_operand :
    int32Reading 0xFFFF0000 = -65536 ∧ int32Reading 0x8000 = 32768 ∧
      int32Reading 0xFFFF0000 * int32Reading 0x8000 / 2 ^ 16 = -32768 ∧
      int32Reading 0xFFFF8000 = -32768 ∧
      mp_fixed32_mul 0xFFFF0000 0x8000 = 0x7FFF8000 ∧
      int32Reading (mp_fixed32_mul 0xFFFF0000 0x8000) = 2147450880 ∧
      int32Reading (mp_fixed32_mul 0xFFFF0000 0x8000) ≠
        int32Reading 0xFFFF0000 * int32Reading 0x8000 / 2 ^ 16 := by
  decide

variable {K : Type} [LinearOrderedField K]

theorem step_fixed_dynamic (w : mp_dynamics_world K) (i : Nat) (b : mp_dynamics_body K)
    (hi : i < w.bodyCount) (hb : w.bodies[i]? = some b)
    (hk : b.isKinematic = 0) (hm : 0 < b.mass) :
    (mp_dynamics_world_step_fixed w).bodies[i]? =
      some { b with
        linVelocity :=
          mp_float32x3_add b.linVelocity (mp_float32x3_mul1 w.gravity w.timestep)
        position :=
          mp_float32x3_add b.position
            (mp_float32x3_add b.linVelocity (mp_float32x3_mul1 w.gravity w.timestep)) } := by
  rw [step_fixed_bodies_getElem?, if_pos hi, hb, Option.map_some']
  have hk1 : ¬ b.isKinematic ≠ 0 := fun h => h hk
  unfold mp_dynamics_world_step_fixed_body
  rw [if_neg hk1, if_pos hm]

/-- C30: closed form of repeated sub-steps.  For a non-kinematic body with
`mass > 0` among the first `bodyCount` slots, starting at position `p0` with
linear velocity `v0`, `n` consecutive calls of
`mp_dynamics_world_step_fixed` leave `linVelocity = v0 + n * T * g` and
`position = p0 + n * v0 + (n * (n + 1) / 2) * T * g`: each sub-step moves the
body by its velocity, not by its velocity times `T`. -/
theorem C30_repeated_substeps_closed_form (w : mp_dynamics_world K) (i : Nat)
    (b : mp_dynamics_body K) (n : Nat) (hi : i < w.bodyCount) (hb : w.bodies[i]? = some b)
    (hk : b.isKinematic = 0) (hm : 0 < b.mass) :
    (mp_dynamics_world_step_fixed^[n] w).bodies[i]? =
      some { b with
        linVelocity :=
          { x := b.linVelocity.x + (n : K) * w.timestep * w.gravity.x
            y := b.linVelocity.y + (n : K) * w.timestep * w.gravity.y
            z := b.linVelocity.z + (n : K) * w.timestep * w.gravity.z }
        position :=
          { x := b.position.x + (n : K) * b.linVelocity.x +
              ((n : K) * ((n : K) + 1) / 2) * w.timestep * w.gravity.x
            y := b.position.y + (n : K) * b.linVelocity.y +
              ((n : K) * ((n : K) + 1) / 2) * w.timestep * w.gravity.y
            z := b.position.z + (n : K) * b.linVelocity.z +
              ((n : K) * ((n : K) + 1) / 2) * w.timestep * w.gravity.z } } := by
  induction n with
  | zero =>
    rw [Function.iterate_zero, id, hb]
    congr 1
    cases b with
    | mk p r v a m k =>
      cases p
      cases v
      simp
  | succ n ih =>
    rw [Function.iterate_succ_apply']
    obtain ⟨hT, _, hg, hc, _⟩ := step_fixed_iterate_frame n w
    rw [step_fixed_dynamic _ i _ (by rw [hc]; exact hi) ih hk hm, hT, hg]
    congr 1
    simp only [mp_float32x3_add, mp_float32x3_mul1, mp_float32x3f, mp_float32_add,
      mp_float32_mul, mp_dynamics_body.mk.injEq, mp_float32x3.mk.injEq, true_and, and_true]
    push_cast
    refine ⟨⟨?_, ?_, ?_⟩, ⟨?_, ?_, ?_⟩⟩ <;> ring

/-- C30 at the gravity test case: after 3 sub-steps the body of mass 1 has
velocity (0, -30, 0) and position (0, -60, 0). -/
theorem C30_repeated_substeps_closed_form_witness :
    0 < gravityWorld.bodyCount ∧ gravityWorld.bodies[0]? = some dynamicBody ∧
      dynamicBody.isKinematic = 0 ∧ 0 < dynamicBody.mass ∧
      (mp_dynamics_world_step_fixed^[3] gravityWorld).bodies[0]? =
        some { dynamicBody with
          linVelocity := { x := 0, y := -30, z := 0 }
          position := { x := 0, y := -60, z := 0 } } := by
  have h1 : 0 < gravityWorld.bodyCount := by decide
  have h2 : gravityWorld.bodies[0]? = some dynamicBody := by
    simp only [gravityWorld, List.getElem?_cons_zero]
  have h3 : dynamicBody.isKinematic = 0 := rfl
  have h4 : 0 < dynamicBody.mass := by norm_num [dynamicBody]
  have key := C30_repeated_substeps_closed_form gravityWorld 0 dynamicBody 3 h1 h2 h3 h4
  refine ⟨h1, h2, h3, h4, ?_⟩
  rw [key]
  norm_num [gravityWorld, unitWorld, dynamicBody, mp_dynamics_body_zero, mp_float32x3_zero]

end SignedAndClosedFormClaims

/-! ## Frame of the stepper and agreement of the queries: claims C31 to C33 -/

section FrameClaims

variable {K : Type} [LinearOrderedField K]

theorem step_fixed_body_frame (gs : mp_float32x3 K) (b : mp_dynamics_body K) :
    (mp_dynamics_world_step_fixed_body gs b).mass = b.mass ∧
      (mp_dynamics_world_step_fixed_body gs b).isKinematic = b.isKinematic ∧
      (mp_dynamics_world_step_fixed_body gs b).rotation = b.rotation ∧
      (mp_dynamics_world_step_fixed_body gs b).angVelocity = b.angVelocity := by
  unfold mp_dynamics_world_step_fixed_body
  split_ifs <;> exact ⟨rfl, rfl, rfl, rfl⟩

theorem step_fixed_frame (w : mp_dynamics_world K) (j : Nat) (b : mp_dynamics_body K)
    (hb : w.bodies[j]? = some b) :
    ∃ b1, (mp_dynamics_world_step_fixed w).bodies[j]? = some b1 ∧
      b1.mass = b.mass ∧ b1.isKinematic = b.isKinematic ∧ b1.rotation = b.rotation ∧
      b1.angVelocity = b.angVelocity ∧
      ((w.bodyCount ≤ j ∨ b.isKinematic ≠ 0 ∨ ¬ 0 < b.mass) → b1 = b) := by
  rw [step_fixed_bodies_getElem?, hb]
  by_cases hj : j < w.bodyCount
  · rw [if_pos hj, Option.map_some']
    obtain ⟨h1, h2, h3, h4⟩ :=
      step_fixed_body_frame (mp_float32x3_mul1 w.gravity w.timestep) b
    refine ⟨_, rfl, h1, h2, h3, h4, ?_⟩
    rintro (h | h | h)
    · exact absurd hj (not_lt.2 h)
    · exact step_fixed_body_inert _ b (Or.inl h)
    · exact step_fixed_body_inert _ b (Or.inr h)
  · rw [if_neg hj]
    exact ⟨b, rfl, rfl, rfl, rfl, rfl, fun _ => rfl⟩

theorem step_loop_frame :
    ∀ (fuel : Nat) (w : mp_dynamics_world K) (r : Nat × mp_dynamics_world K),
      mp_dynamics_world_step_loop fuel w = some r →
        r.2.timestep = w.timestep ∧ r.2.gravity = w.gravity ∧
        r.2.bodyCount = w.bodyCount ∧ r.2.collision = w.collision ∧
        r.2.bodies.length = w.bodies.length ∧
        ∀ (j : Nat) (b : mp_dynamics_body K), w.bodies[j]? = some b →
          ∃ b1, r.2.bodies[j]? = some b1 ∧
            b1.mass = b.mass ∧ b1.isKinematic = b.isKinematic ∧ b1.rotation = b.rotation ∧
            b1.angVelocity = b.angVelocity ∧
            ((w.bodyCount ≤ j ∨ b.isKinematic ≠ 0 ∨ ¬ 0 < b.mass) → b1 = b) := by
  intro fuel
  induction fuel with
  | zero => intro w r h; simp [mp_dynamics_world_step_loop] at h
  | succ fuel ih =>
    intro w r h
    rw [mp_dynamics_world_step_loop] at h
    by_cases hc : w.dt ≥ w.timestep
    · rw [if_pos hc] at h
      obtain ⟨r1, h1, rfl⟩ := Option.map_eq_some'.1 h
      obtain ⟨e1, e2, e3, e4, e5, e6⟩ := ih _ r1 h1
      refine ⟨e1, e2, e3, e4, e5.trans (step_fixed_loop_length _ _ _ _), ?_⟩
      intro j b hb
      obtain ⟨b1, hb1, m1, k1, r1', a1, u1⟩ := step_fixed_frame w j b hb
      obtain ⟨b2, hb2, m2, k2, r2, a2, u2⟩ := e6 j b1 hb1
      refine ⟨b2, hb2, m2.trans m1, k2.trans k1, r2.trans r1', a2.trans a1, ?_⟩
      intro hin
      have hb1eq : b1 = b := u1 hin
      have hin1 : (w.bodyCount ≤ j ∨ b1.isKinematic ≠ 0 ∨ ¬ 0 < b1.mass) := by
        rw [hb1eq]
        exact hin
      exact (u2 hin1).trans hb1eq
    · rw [if_neg hc] at h
      obtain rfl : (0, w) = r := Option.some.inj h
      exact ⟨rfl, rfl, rfl, rfl, rfl, fun j b hb => ⟨b, hb, rfl, rfl, rfl, rfl, fun _ => rfl⟩⟩


/-- C31: frame of `mp_dynamics_world_step`.  A returning call changes
nothing but the accumulator `dt` and the `position` and `linVelocity` of
non-kinematic bodies with `mass > 0` in slots below `bodyCount`: `timestep`,
`gravity`, `bodyCount`, the collision world and the number of slots are
unchanged; every body keeps its `mass`, `isKinematic`, `rotation` and
`angVelocity`; and a body in a slot at or above `bodyCount`, a kinematic
body and a body whose mass is not positive are left identical.  The call
does return when the timestep is positive. -/
theorem C31_step_frame [FloorRing K] (w : mp_dynamics_world K) (d : K) :
    (∀ fuel w1, mp_dynamics_world_step fuel (some w) d = some (some w1) →
        w1.timestep = w.timestep ∧ w1.gravity = w.gravity ∧
        w1.bodyCount = w.bodyCount ∧ w1.collision = w.collision ∧
        w1.bodies.length = w.bodies.length ∧
        ∀ (j : Nat) (b : mp_dynamics_body K), w.bodies[j]? = some b →
          ∃ b1, w1.bodies[j]? = some b1 ∧
            b1.mass = b.mass ∧ b1.isKinematic = b.isKinematic ∧ b1.rotation = b.rotation ∧
            b1.angVelocity = b.angVelocity ∧
            ((w.bodyCount ≤ j ∨ b.isKinematic ≠ 0 ∨ ¬ 0 < b.mass) → b1 = b)) ∧
      (0 < w.timestep → ∃ fuel w1, mp_dynamics_world_step fuel (some w) d = some (some w1)) := by
  constructor
  · intro fuel w1 h
    obtain ⟨n, hn⟩ := (step_eq_some_iff fuel w w1 d).1 h
    exact step_loop_frame fuel _ _ hn
  · intro hT
    exact ⟨⌊(w.dt + d) / w.timestep⌋₊ + 1, stepResult w d,
      step_floor w d hT _ (Nat.lt_succ_self _)⟩

/-- C31 at a concrete input: the mixed world under delta time 7/2; the
static body, the kinematic body and the unused slot 3 are identical after
the call, and the dynamic body keeps its mass. -/
theorem C31_step_frame_witness :
    ∃ fuel w1, mp_dynamics_world_step fuel (some mixedWorld) (7 / 2) = some (some w1) ∧
      w1.timestep = 1 ∧ w1.bodyCount = 3 ∧
      w1.bodies[1]? = some staticBody ∧ w1.bodies[2]? = some kinematicBody ∧
      w1.bodies[3]? = some mp_dynamics_body_zero ∧
      ∃ b1, w1.bodies[0]? = some b1 ∧ b1.mass = 1 := by
  have hT : 0 < mixedWorld.timestep := by norm_num [mixedWorld, unitWorld]
  have h0 : mixedWorld.bodies[0]? = some dynamicBody := by
    simp only [mixedWorld, List.getElem?_cons_zero]
  have h1 : mixedWorld.bodies[1]? = some staticBody := by
    simp only [mixedWorld, List.getElem?_cons_succ, List.getElem?_cons_zero]
  have h2 : mixedWorld.bodies[2]? = some kinematicBody := by
    simp only [mixedWorld, List.getElem?_cons_succ, List.getElem?_cons_zero]
  have h3 : mixedWorld.bodies[3]? = some mp_dynamics_body_zero := by
    simp only [mixedWorld, List.getElem?_cons_succ]
    exact List.getElem?_replicate_of_lt (by norm_num)
  have key := C31_step_frame mixedWorld (7 / 2)
  obtain ⟨fuel, w1, hw⟩ := key.2 hT
  obtain ⟨e1, _, e3, _, _, e6⟩ := key.1 fuel w1 hw
  obtain ⟨a0, ha0, m0, _⟩ := e6 0 dynamicBody h0
  obtain ⟨a1, ha1, _, _, _, _, u1⟩ := e6 1 staticBody h1
  obtain ⟨a2, ha2, _, _, _, _, u2⟩ := e6 2 kinematicBody h2
  obtain ⟨a3, ha3, _, _, _, _, u3⟩ := e6 3 mp_dynamics_body_zero h3
  have q1 : a1 = staticBody := u1 (Or.inr (Or.inr (by norm_num [staticBody, mp_dynamics_body_zero])))
  have q2 : a2 = kinematicBody := u2 (Or.inr (Or.inl (by decide)))
  have q3 : a3 = mp_dynamics_body_zero := u3 (Or.inl (by decide))
  refine ⟨fuel, w1, hw, e1, e3, ?_, ?_, ?_, a0, ha0, m0⟩
  · rw [ha1, q1]
  · rw [ha2, q2]
  · rw [ha3, q3]

end FrameClaims

section AgreementClaims

/-- C32: for `A * A + B * B ≠ 0`, `mp_distance_point_to_plane (p, A, B, C)`
equals `mp_float32x2_distance` between `p` and
`mp_closest_point_on_plane_to_point (p, A, B, C)`, and its square equals
`mp_float32x2_distance2` of the two points. -/
theorem C32_distance_agrees_with_closest_point (p : mp_float32x2 ℝ) (A B C : ℝ)
    (h : A * A + B * B ≠ 0) :
    mp_distance_point_to_plane Real.sqrt p A B C =
        mp_float32x2_distance Real.sqrt p (mp_closest_point_on_plane_to_point p A B C) ∧
      mp_distance_point_to_plane Real.sqrt p A B C *
          mp_distance_point_to_plane Real.sqrt p A B C =
        mp_float32x2_distance2 p (mp_closest_point_on_plane_to_point p A B C) := by
  have hpos : 0 < A * A + B * B :=
    lt_of_le_of_ne (add_nonneg (mul_self_nonneg A) (mul_self_nonneg B)) (Ne.symm h)
  have e : mp_float32x2_distance2 p (mp_closest_point_on_plane_to_point p A B C) =
      (A * p.x + B * p.y + C) ^ 2 / (A * A + B * B) := by
    rw [closest_point_of_ne p A B C h, x2_distance2_eq]
    show (p.x - (B * (B * p.x - A * p.y) - A * C) / (A * A + B * B)) *
        (p.x - (B * (B * p.x - A * p.y) - A * C) / (A * A + B * B)) +
      (p.y - (A * (A * p.y - B * p.x) - B * C) / (A * A + B * B)) *
        (p.y - (A * (A * p.y - B * p.x) - B * C) / (A * A + B * B)) = _
    field_simp
    ring
  have hd : mp_distance_point_to_plane Real.sqrt p A B C =
      |A * p.x + B * p.y + C| / Real.sqrt (A * A + B * B) := rfl
  constructor
  · rw [mp_float32x2_distance, e, hd, Real.sqrt_div (sq_nonneg _), Real.sqrt_sq_eq_abs]
  · rw [e, hd, div_mul_div_comm, Real.mul_self_sqrt hpos.le, abs_mul_abs_self, sq]

/-- C32 at a concrete input: the point (1, 2) and the line
`3 x + 4 y - 5 = 0`. -/
theorem C32_distance_agrees_with_closest_point_witness :
    (3 : ℝ) * 3 + 4 * 4 ≠ 0 ∧
      mp_distance_point_to_plane Real.sqrt { x := 1, y := 2 } 3 4 (-5) =
        mp_float32x2_distance Real.sqrt { x := 1, y := 2 }
          (mp_closest_point_on_plane_to_point { x := 1, y := 2 } 3 4 (-5)) := by
  have h : (3 : ℝ) * 3 + 4 * 4 ≠ 0 := by norm_num
  exact ⟨h, (C32_distance_agrees_with_closest_point { x := 1, y := 2 } 3 4 (-5) h).1⟩

/-- C33: 2D rotation preserves the squared length:
`mp_float32x2_length2 (mp_float32x2_rotate v a) = mp_float32x2_length2 v` for
every vector `v` and angle `a`, with `sin` and `cos` the real functions. -/
theorem C33_rotate_preserves_length2 (v : mp_float32x2 ℝ) (a : ℝ) :
    mp_float32x2_length2 (mp_float32x2_rotate Real.sin Real.cos v a) =
      mp_float32x2_length2 v := by
  show (v.x * Real.cos a - v.y * Real.sin a) * (v.x * Real.cos a - v.y * Real.sin a) +
      (v.x * Real.sin a + v.y * Real.cos a) * (v.x * Real.sin a + v.y * Real.cos a) =
    v.x * v.x + v.y * v.y
  have hsc := Real.sin_sq_add_cos_sq a
  linear_combination (v.x * v.x + v.y * v.y) * hsc

end AgreementClaims

end MiniPhysics
